import Mathlib

/-!
Verification development for the claim169 credential codec (Rust core
`claim169-core`).  The pipeline under study is

  Base45 text → decompress → COSE (Sign1 / Encrypt0) → CWT → Claim 169 map

We shallowly embed the Rust sources: `pipeline/cose.rs`,
`pipeline/decompress.rs`, `pipeline/claim169.rs`, `options.rs`, the model
enums, and the orchestrator `decode_internal` from `lib.rs`.  External
crates (ciborium, coset, flate2) and repository modules not present in the
source tree (base45 codec, CWT codec, error enum definitions) are modelled
from the specification; each such definition carries a doc comment saying
so.  Bytes are `List Nat`, machine integers are `Int`/`Nat`.
-/

/-- Bytes of the Rust `Vec<u8>` / `&[u8]` values. -/
abbrev Bytes := List Nat

/-- Modelled from the spec: the CBOR value tree of `ciborium::Value`
(Integer, Bytes, Float, Text, Bool, Null, Tag, Array, Map).  The external
`ciborium` crate defines this type; the embedding mirrors its variants. -/
inductive CborValue where
  | int (i : Int)
  | bytes (b : Bytes)
  | float (f : Float)
  | text (s : String)
  | bool (b : Bool)
  | null
  | tag (t : Nat) (v : CborValue)
  | array (vs : List CborValue)
  | map (m : List (CborValue × CborValue))
deriving Inhabited

/-- Modelled from the spec: `serde_json::Value` as used for the
unknown-field bag (`int → dynamic-JSON-value`). -/
inductive Json where
  | num (i : Int)
  | fnum (f : Float)
  | str (s : String)
  | bool (b : Bool)
  | null
  | arr (vs : List Json)
  | obj (m : List (String × Json))
deriving Inhabited

/-- Range check for Rust `i64::try_from` on an integer. -/
def inI64 (i : Int) : Prop := -(2 ^ 63) ≤ i ∧ i < 2 ^ 63

instance (i : Int) : Decidable (inI64 i) := by
  unfold inI64; infer_instance

/-- Rust `i64::try_from(i128).ok()` on our unbounded `Int`. -/
def i64FromInt (i : Int) : Option Int :=
  if inI64 i then some i else none

/-- Verification status of the decoded QR (`model/enums.rs`). -/
inductive VerificationStatus where
  | verified
  | failed
  | skipped
deriving DecidableEq, Inhabited

/-- Modelled from the spec: the error kinds of §7 (the crate's `error.rs` is
not part of the provided sources; constructor payloads follow the usages in
`lib.rs`, `pipeline/cose.rs`, `pipeline/decompress.rs`,
`pipeline/claim169.rs`). -/
inductive Claim169Error where
  | base45Decode (msg : String)
  | decompress (msg : String)
  | decompressLimitExceeded (maxBytes : Nat)
  | coseParse (msg : String)
  | unsupportedCoseType (msg : String)
  | signatureInvalid (msg : String)
  | decryptionFailed (msg : String)
  | cborParse (msg : String)
  | cwtParse (msg : String)
  | claim169NotFound
  | claim169Invalid (msg : String)
  | unsupportedAlgorithm (msg : String)
  | keyNotFound
  | expired (ts : Int)
  | notYetValid (ts : Int)
  | crypto (msg : String)
deriving DecidableEq, Inhabited

/-- Modelled from the spec: `CryptoError` of the capability contracts
(§4.3); the crate's `error.rs` is not in the provided sources.  Variants
follow the usages in `pipeline/cose.rs` and `crypto/traits.rs`. -/
inductive CryptoError where
  | verificationFailed
  | decryptionFailed (msg : String)
  | keyNotFound
  | unsupportedAlgorithm (msg : String)
  | other (msg : String)
deriving DecidableEq, Inhabited

/-- Modelled from the spec: the `Display` text of a `CryptoError`
(`e.to_string()` in the sources; the `Display` impl is not provided). -/
def cryptoErrorMessage : CryptoError → String
  | .verificationFailed => "signature verification failed"
  | .decryptionFailed m => m
  | .keyNotFound => "key not found"
  | .unsupportedAlgorithm m => m
  | .other m => m

/-- Modelled from the spec: the `From<CryptoError> for Claim169Error`
conversion (`e.into()` in `pipeline/cose.rs`); §7 lists the target kinds
(`UnsupportedAlgorithm`, `KeyNotFound`, `SignatureInvalid`,
`DecryptionFailed`, capability errors surfaced as `Crypto`). -/
def cryptoErrorInto : CryptoError → Claim169Error
  | .verificationFailed => .signatureInvalid "signature verification failed"
  | .decryptionFailed m => .decryptionFailed m
  | .keyNotFound => .keyNotFound
  | .unsupportedAlgorithm m => .unsupportedAlgorithm m
  | .other m => .crypto m

/-- COSE algorithm header value as parsed by `coset`
(`coset::Algorithm` = registered label with private use); `Assigned`
carries the COSE algorithm number.  Only the shape matters here. -/
inductive CoseAlg where
  | assigned (n : Int)
  | text (s : String)
deriving DecidableEq, Inhabited

/-- COSE header label (`coset::Label`): integer or text. -/
inductive CoseLabel where
  | int (i : Int)
  | text (s : String)

/-- COSE header bag as parsed by `coset::Header`: the fields the core
reads (`alg`, `key_id`, `iv`) plus the remaining labels in `rest`. -/
structure CoseHeader where
  alg : Option CoseAlg := none
  key_id : Bytes := []
  iv : Bytes := []
  rest : List (CoseLabel × CborValue) := []

/-- `coset::ProtectedHeader`: parsed header plus the serialized bytes as
received (`original_data`). -/
structure ProtectedHeader where
  original_data : Option Bytes := none
  header : CoseHeader := {}

/-- `coset::CoseSign1`. -/
structure CoseSign1 where
  protected_ : ProtectedHeader := {}
  unprotected : CoseHeader := {}
  payload : Option Bytes := none
  signature : Bytes := []

/-- `coset::CoseEncrypt0`. -/
structure CoseEncrypt0 where
  protected_ : ProtectedHeader := {}
  unprotected : CoseHeader := {}
  ciphertext : Option Bytes := none

/-- Certificate-hash algorithm of `model/x509.rs` (`CertHashAlgorithm`). -/
inductive CertHashAlgorithm where
  | numeric (n : Int)
  | named (s : String)
deriving DecidableEq

/-- `model/x509.rs` `CertificateHash`: `[algorithm, hash_value]`. -/
structure CertificateHash where
  algorithm : CertHashAlgorithm
  hash_value : Bytes
deriving DecidableEq

/-- `model/x509.rs` `X509Headers` (RFC 9360 labels 32..35). -/
structure X509Headers where
  x5bag : Option (List Bytes) := none
  x5chain : Option (List Bytes) := none
  x5t : Option CertificateHash := none
  x5u : Option String := none
deriving DecidableEq

/-- Result of the COSE stage (`pipeline/cose.rs` `CoseResult`). -/
structure CoseResult where
  payload : Bytes
  verification_status : VerificationStatus
  algorithm : Option CoseAlg
  key_id : Option Bytes
  x509_headers : X509Headers
deriving DecidableEq

/-- A verifier capability (`crypto/traits.rs` `SignatureVerifier`):
`verify(algorithm, key_id, data, signature)`.  Caller-supplied; modelled as
a function value. -/
def Verifier := CoseAlg → Option Bytes → Bytes → Bytes → Except CryptoError Unit

/-- A decryptor capability (`crypto/traits.rs` `Decryptor`):
`decrypt(algorithm, key_id, nonce, aad, ciphertext)`. -/
def Decryptor := CoseAlg → Option Bytes → Bytes → Bytes → Bytes → Except CryptoError Bytes

/-- Gender codes (`model/enums.rs`): 1, 2, 3. -/
inductive Gender where
  | male
  | female
  | other
deriving DecidableEq

/-- `Gender::try_from(i64)`. -/
def genderTryFrom : Int → Option Gender
  | 1 => some .male
  | 2 => some .female
  | 3 => some .other
  | _ => none

/-- MaritalStatus codes (`model/enums.rs`): 1, 2, 3. -/
inductive MaritalStatus where
  | unmarried
  | married
  | divorced
deriving DecidableEq

/-- `MaritalStatus::try_from(i64)`. -/
def maritalStatusTryFrom : Int → Option MaritalStatus
  | 1 => some .unmarried
  | 2 => some .married
  | 3 => some .divorced
  | _ => none

/-- PhotoFormat codes (`model/enums.rs`): 1..4. -/
inductive PhotoFormat where
  | jpeg
  | jpeg2000
  | avif
  | webp
deriving DecidableEq

/-- `PhotoFormat::try_from(i64)`. -/
def photoFormatTryFrom : Int → Option PhotoFormat
  | 1 => some .jpeg
  | 2 => some .jpeg2000
  | 3 => some .avif
  | 4 => some .webp
  | _ => none

/-- BiometricFormat codes (`model/enums.rs`): 0..3. -/
inductive BiometricFormat where
  | image
  | template
  | sound
  | bioHash
deriving DecidableEq

/-- `BiometricFormat::try_from(i64)`. -/
def biometricFormatTryFrom : Int → Option BiometricFormat
  | 0 => some .image
  | 1 => some .template
  | 2 => some .sound
  | 3 => some .bioHash
  | _ => none

/-- Image sub-formats (`model/enums.rs`). -/
inductive ImageSubFormat where
  | png | jpeg | jpeg2000 | avif | webp | tiff | wsq
  | vendorSpecific (v : Int)
deriving DecidableEq

/-- `ImageSubFormat::try_from(i64)`: 0..6 named, 100..=200 vendor. -/
def imageSubFormatTryFrom (v : Int) : Option ImageSubFormat :=
  if v = 0 then some .png
  else if v = 1 then some .jpeg
  else if v = 2 then some .jpeg2000
  else if v = 3 then some .avif
  else if v = 4 then some .webp
  else if v = 5 then some .tiff
  else if v = 6 then some .wsq
  else if 100 ≤ v ∧ v ≤ 200 then some (.vendorSpecific v)
  else none

/-- Template sub-formats (`model/enums.rs`). -/
inductive TemplateSubFormat where
  | ansi378 | iso19794v2 | nist
  | vendorSpecific (v : Int)
deriving DecidableEq

/-- `TemplateSubFormat::try_from(i64)`: 0..2 named, 100..=200 vendor. -/
def templateSubFormatTryFrom (v : Int) : Option TemplateSubFormat :=
  if v = 0 then some .ansi378
  else if v = 1 then some .iso19794v2
  else if v = 2 then some .nist
  else if 100 ≤ v ∧ v ≤ 200 then some (.vendorSpecific v)
  else none

/-- Sound sub-formats (`model/enums.rs`): 0 wav, 1 mp3. -/
inductive SoundSubFormat where
  | wav | mp3
deriving DecidableEq

/-- `SoundSubFormat::try_from(i64)`. -/
def soundSubFormatTryFrom : Int → Option SoundSubFormat
  | 0 => some .wav
  | 1 => some .mp3
  | _ => none

/-- Unified biometric sub-format (`model/enums.rs` `BiometricSubFormat`). -/
inductive BiometricSubFormat where
  | image (f : ImageSubFormat)
  | template (f : TemplateSubFormat)
  | sound (f : SoundSubFormat)
  | raw (v : Int)
deriving DecidableEq

/-- `BiometricSubFormat::from_format_and_value`. -/
def biometricSubFormatFrom (format : BiometricFormat) (value : Int) : BiometricSubFormat :=
  match format with
  | .image => (imageSubFormatTryFrom value).elim (.raw value) .image
  | .template => (templateSubFormatTryFrom value).elim (.raw value) .template
  | .sound => (soundSubFormatTryFrom value).elim (.raw value) .sound
  | .bioHash => .raw value

/-- Modelled from the spec: a biometric entry (`model/biometrics.rs` is not
in the provided sources): `data: bytes`, optional format, sub-format and
issuer (§3.1). -/
structure Biometric where
  data : Bytes
  format : Option BiometricFormat := none
  sub_format : Option BiometricSubFormat := none
  issuer : Option String := none
deriving DecidableEq

/-- The typed Claim 169 record (`model/claim169.rs`); the unknown-field
`HashMap<i64, serde_json::Value>` is modelled as an association list keyed
by `Int`. -/
structure Claim169 where
  id : Option String := none
  version : Option String := none
  language : Option String := none
  full_name : Option String := none
  first_name : Option String := none
  middle_name : Option String := none
  last_name : Option String := none
  date_of_birth : Option String := none
  gender : Option Gender := none
  address : Option String := none
  email : Option String := none
  phone : Option String := none
  nationality : Option String := none
  marital_status : Option MaritalStatus := none
  guardian : Option String := none
  photo : Option Bytes := none
  photo_format : Option PhotoFormat := none
  best_quality_fingers : Option (List Nat) := none
  secondary_full_name : Option String := none
  secondary_language : Option String := none
  location_code : Option String := none
  legal_status : Option String := none
  country_of_issuance : Option String := none
  right_thumb : Option (List Biometric) := none
  right_pointer_finger : Option (List Biometric) := none
  right_middle_finger : Option (List Biometric) := none
  right_ring_finger : Option (List Biometric) := none
  right_little_finger : Option (List Biometric) := none
  left_thumb : Option (List Biometric) := none
  left_pointer_finger : Option (List Biometric) := none
  left_middle_finger : Option (List Biometric) := none
  left_ring_finger : Option (List Biometric) := none
  left_little_finger : Option (List Biometric) := none
  right_iris : Option (List Biometric) := none
  left_iris : Option (List Biometric) := none
  face : Option (List Biometric) := none
  right_palm : Option (List Biometric) := none
  left_palm : Option (List Biometric) := none
  voice : Option (List Biometric) := none
  unknown_fields : List (Int × Json) := []

/-- Modelled from the spec: `CwtMeta` (§3.2) — optional issuer, subject,
expires_at, not_before, issued_at; the crate's CWT model file is not in the
provided sources. -/
structure CwtMeta where
  issuer : Option String := none
  subject : Option String := none
  expires_at : Option Int := none
  not_before : Option Int := none
  issued_at : Option Int := none

/-- `options.rs` `DecodeOptions`. -/
structure DecodeOptions where
  max_decompressed_bytes : Nat := 65536
  skip_biometrics : Bool := false
  validate_timestamps : Bool := true
  allow_unverified : Bool := false
  clock_skew_tolerance_seconds : Int := 0

/-- `DecodeOptions::default()`. -/
def DecodeOptions.default : DecodeOptions := {}

/-- `DecodeOptions::with_clock_skew_tolerance` (clamps to non-negative). -/
def DecodeOptions.with_clock_skew_tolerance (o : DecodeOptions) (seconds : Int) : DecodeOptions :=
  { o with clock_skew_tolerance_seconds := max seconds 0 }

/-- Warning codes of `lib.rs` `WarningCode` (exactly the four variants the
source declares). -/
inductive WarningCode where
  | expiringSoon
  | unknownFields
  | timestampValidationSkipped
  | biometricsSkipped
deriving DecidableEq

/-- A warning (`lib.rs` `Warning`): code plus human-readable message. -/
structure Warning where
  code : WarningCode
  message : String

/-- `lib.rs` `DecodeResult`. -/
structure DecodeResult where
  claim169 : Claim169
  cwt_meta : CwtMeta
  verification_status : VerificationStatus
  warnings : List Warning

/-- Detected compression (`pipeline/decompress.rs` `DetectedCompression`),
without the feature-gated brotli variant. -/
inductive DetectedCompression where
  | zlib
  | none
deriving DecidableEq

/-- Minimal-length CBOR header for a major type and argument (RFC 8949). -/
def cborHead (major : Nat) (n : Nat) : Bytes :=
  if n < 24 then [major * 32 + n]
  else if n < 256 then [major * 32 + 24, n]
  else if n < 65536 then [major * 32 + 25, n / 256, n % 256]
  else if n < 4294967296 then
    [major * 32 + 26, n / 16777216 % 256, n / 65536 % 256, n / 256 % 256, n % 256]
  else
    [major * 32 + 27, n / 72057594037927936 % 256, n / 281474976710656 % 256,
     n / 1099511627776 % 256, n / 4294967296 % 256, n / 16777216 % 256,
     n / 65536 % 256, n / 256 % 256, n % 256]

/-- UTF-8 bytes of a text string, restricted to the ASCII subset used by
this development (the sources only ever compare fixed ASCII strings). -/
def textBytes (s : String) : Bytes := s.data.map Char.toNat

mutual

/-- Modelled from the spec: definite-length CBOR serialization
(`ciborium::into_writer`); floats are outside the modelled subset and
encode as an empty byte string placeholder (never reachable from the
sources embedded here). -/
def cborEncodeVal : CborValue → Bytes
  | .int i => if 0 ≤ i then cborHead 0 i.toNat else cborHead 1 (-1 - i).toNat
  | .bytes b => cborHead 2 b.length ++ b
  | .text s => cborHead 3 (textBytes s).length ++ textBytes s
  | .bool b => if b then [245] else [244]
  | .null => [246]
  | .float _ => []
  | .tag t v => cborHead 6 t ++ cborEncodeVal v
  | .array vs => cborHead 4 vs.length ++ cborEncodeList vs
  | .map m => cborHead 5 m.length ++ cborEncodeMap m

def cborEncodeList : List CborValue → Bytes
  | [] => []
  | v :: tl => cborEncodeVal v ++ cborEncodeList tl

def cborEncodeMap : List (CborValue × CborValue) → Bytes
  | [] => []
  | (k, v) :: tl => cborEncodeVal k ++ cborEncodeVal v ++ cborEncodeMap tl
end

/-- Read a CBOR argument: the additional-information field plus any
following length bytes (big-endian; definite lengths only). -/
def cborReadArg (info : Nat) (rest : Bytes) : Option (Nat × Bytes) :=
  if info < 24 then some (info, rest)
  else if info = 24 then
    match rest with
    | b :: r => some (b, r)
    | _ => none
  else if info = 25 then
    match rest with
    | b1 :: b2 :: r => some (b1 * 256 + b2, r)
    | _ => none
  else if info = 26 then
    match rest with
    | b1 :: b2 :: b3 :: b4 :: r =>
        some (b1 * 16777216 + b2 * 65536 + b3 * 256 + b4, r)
    | _ => none
  else if info = 27 then
    match rest with
    | b1 :: b2 :: b3 :: b4 :: b5 :: b6 :: b7 :: b8 :: r =>
        some (b1 * 72057594037927936 + b2 * 281474976710656 + b3 * 1099511627776 +
              b4 * 4294967296 + b5 * 16777216 + b6 * 65536 + b7 * 256 + b8, r)
    | _ => none
  else none

mutual

/-- Modelled from the spec: a definite-length CBOR parser standing in for
the external `ciborium`/`coset` byte-level decoders.  `fuel` bounds the
recursion; callers supply fuel exceeding any possible nesting.  Indefinite
lengths and floats are outside the modelled subset. -/
def cborParseVal : Nat → Bytes → Option (CborValue × Bytes)
  | 0, _ => none
  | _ + 1, [] => none
  | fuel + 1, b0 :: rest =>
    let major := b0 / 32
    let info := b0 % 32
    if major = 0 then
      (cborReadArg info rest).map fun (n, r) => (.int (n : Int), r)
    else if major = 1 then
      (cborReadArg info rest).map fun (n, r) => (.int (-1 - (n : Int)), r)
    else if major = 2 then
      match cborReadArg info rest with
      | some (n, r) =>
        if n ≤ r.length then some (.bytes (r.take n), r.drop n) else none
      | none => none
    else if major = 3 then
      match cborReadArg info rest with
      | some (n, r) =>
        if n ≤ r.length then
          some (.text (String.mk ((r.take n).map Char.ofNat)), r.drop n)
        else none
      | none => none
    else if major = 4 then
      match cborReadArg info rest with
      | some (n, r) =>
        match cborParseItems fuel n r with
        | some (vs, r2) => some (.array vs, r2)
        | none => none
      | none => none
    else if major = 5 then
      match cborReadArg info rest with
      | some (n, r) =>
        match cborParsePairs fuel n r with
        | some (m, r2) => some (.map m, r2)
        | none => none
      | none => none
    else if major = 6 then
      match cborReadArg info rest with
      | some (n, r) =>
        match cborParseVal fuel r with
        | some (v, r2) => some (.tag n v, r2)
        | none => none
      | none => none
    else
      if info = 20 then some (.bool false, rest)
      else if info = 21 then some (.bool true, rest)
      else if info = 22 then some (.null, rest)
      else none

def cborParseItems : Nat → Nat → Bytes → Option (List CborValue × Bytes)
  | 0, _, _ => none
  | _ + 1, 0, rest => some ([], rest)
  | fuel + 1, count + 1, rest =>
    match cborParseVal fuel rest with
    | some (v, r) =>
      match cborParseItems fuel count r with
      | some (vs, r2) => some (v :: vs, r2)
      | none => none
    | none => none

def cborParsePairs : Nat → Nat → Bytes → Option (List (CborValue × CborValue) × Bytes)
  | 0, _, _ => none
  | _ + 1, 0, rest => some ([], rest)
  | fuel + 1, count + 1, rest =>
    match cborParseVal fuel rest with
    | some (k, r) =>
      match cborParseVal fuel r with
      | some (v, r2) =>
        match cborParsePairs fuel count r2 with
        | some (m, r3) => some ((k, v) :: m, r3)
        | none => none
      | none => none
    | none => none
end

/-- Modelled from the spec: parse a byte string as exactly one CBOR value
(the behaviour of `coset`'s `from_slice`, which rejects trailing data). -/
def cborFromBytes (bs : Bytes) : Option CborValue :=
  match cborParseVal (2 * bs.length + 2) bs with
  | some (v, []) => some v
  | _ => none

/-- Modelled from the spec: the Base45 alphabet of RFC 9285 (§4.5.1). -/
def b45Chars : List Char := "0123456789ABCDEFGHIJKLMNOPQRSTUVWXYZ $%*+-./:".data

/-- Index of a character in the Base45 alphabet, if any. -/
def b45Index (c : Char) : Option Nat :=
  let i := b45Chars.indexOf c
  if i < b45Chars.length then some i else none

/-- Modelled from the spec: Base45 decoding of RFC 9285 — 3-char groups to
2 bytes, a 2-char tail to 1 byte; invalid character, truncation, or empty
input fail with `Base45Decode` (§4.5.1, §8 boundary behaviours).  The
repository's base45 module is not in the provided sources. -/
def b45DecodeChars : List Char → Except Claim169Error Bytes
  | [] => .ok []
  | [_] => .error (.base45Decode "truncated base45 input")
  | [c, d] =>
    match b45Index c, b45Index d with
    | some i, some j =>
      let v := i + 45 * j
      if v ≤ 255 then .ok [v] else .error (.base45Decode "invalid base45 group")
    | _, _ => .error (.base45Decode "invalid base45 character")
  | c :: d :: e :: tl =>
    match b45Index c, b45Index d, b45Index e with
    | some i, some j, some k =>
      let v := i + 45 * j + 2025 * k
      if v ≤ 65535 then
        (b45DecodeChars tl).map fun bs => v / 256 :: v % 256 :: bs
      else .error (.base45Decode "invalid base45 group")
    | _, _, _ => .error (.base45Decode "invalid base45 character")

/-- Modelled from the spec: `pipeline::base45_decode` — empty QR text is a
`Base45Decode` error (§8 boundary behaviours). -/
def base45_decode (s : String) : Except Claim169Error Bytes :=
  if s.data = [] then .error (.base45Decode "empty input")
  else b45DecodeChars s.data

/-- Modelled from the spec: Base45 encoding of RFC 9285 (2-byte chunks to
3 characters, 1-byte tail to 2); used to build concrete QR inputs. -/
def b45EncodeBytes : Bytes → List Char
  | [] => []
  | [a] => [b45Chars.getD (a % 45) ' ', b45Chars.getD (a / 45) ' ']
  | a :: b :: tl =>
    let n := 256 * a + b
    b45Chars.getD (n % 45) ' ' :: b45Chars.getD (n / 45 % 45) ' ' ::
      b45Chars.getD (n / 2025) ' ' :: b45EncodeBytes tl

/-- Base45 encoding as a string. -/
def base45Encode (bs : Bytes) : String := String.mk (b45EncodeBytes bs)

/-- A hexadecimal digit's value (`hex` crate model). -/
def hexDigitVal (c : Char) : Option Nat :=
  if '0' ≤ c ∧ c ≤ '9' then some (c.toNat - '0'.toNat)
  else if 'a' ≤ c ∧ c ≤ 'f' then some (c.toNat - 'a'.toNat + 10)
  else if 'A' ≤ c ∧ c ≤ 'F' then some (c.toNat - 'A'.toNat + 10)
  else none

/-- Modelled from the spec: `hex::decode(...).ok()` (external crate used by
`extract_bytes` for hex-string byte fields). -/
def hexDecodeChars : List Char → Option Bytes
  | [] => some []
  | [_] => none
  | c :: d :: tl =>
    match hexDigitVal c, hexDigitVal d with
    | some hi, some lo => (hexDecodeChars tl).map fun bs => (hi * 16 + lo) :: bs
    | _, _ => none

/-- Hex decoding of a string. -/
def hexDecode (s : String) : Option Bytes := hexDecodeChars s.data

/-- The standard base64 alphabet (RFC 4648). -/
def b64Chars : List Char :=
  "ABCDEFGHIJKLMNOPQRSTUVWXYZabcdefghijklmnopqrstuvwxyz0123456789+/".data

/-- Modelled from the spec: standard base64 encoding with padding
(`base64::engine::general_purpose::STANDARD`, external crate used by
`cbor_to_json` for byte strings). -/
def b64EncodeBytes : Bytes → List Char
  | [] => []
  | [a] =>
    [b64Chars.getD (a / 4) ' ', b64Chars.getD (a % 4 * 16) ' ', '=', '=']
  | [a, b] =>
    [b64Chars.getD (a / 4) ' ', b64Chars.getD (a % 4 * 16 + b / 16) ' ',
     b64Chars.getD (b % 16 * 4) ' ', '=']
  | a :: b :: c :: tl =>
    b64Chars.getD (a / 4) ' ' :: b64Chars.getD (a % 4 * 16 + b / 16) ' ' ::
      b64Chars.getD (b % 16 * 4 + c / 64) ' ' :: b64Chars.getD (c % 64) ' ' ::
      b64EncodeBytes tl

/-- Base64 encoding as a string. -/
def base64Encode (bs : Bytes) : String := String.mk (b64EncodeBytes bs)

/-- Modelled from the spec: `coset` header-map parsing.  Label 1 is the
algorithm, label 4 the key id, label 5 the IV; remaining labels land in
`rest` in order.  Ill-typed values for the interpreted labels fail the
parse, as they do in `coset`. -/
def parseHeaderEntries : List (CborValue × CborValue) → CoseHeader → Option CoseHeader
  | [], h => some h
  | (k, v) :: tl, h =>
    match k with
    | .int 1 =>
      match v with
      | .int i => parseHeaderEntries tl { h with alg := some (.assigned i) }
      | .text s => parseHeaderEntries tl { h with alg := some (.text s) }
      | _ => none
    | .int 4 =>
      match v with
      | .bytes b => parseHeaderEntries tl { h with key_id := b }
      | _ => none
    | .int 5 =>
      match v with
      | .bytes b => parseHeaderEntries tl { h with iv := b }
      | _ => none
    | .int i => parseHeaderEntries tl { h with rest := h.rest ++ [(.int i, v)] }
    | .text s => parseHeaderEntries tl { h with rest := h.rest ++ [(.text s, v)] }
    | _ => none

/-- Parse a CBOR value as a COSE header map. -/
def parseHeaderMap (v : CborValue) : Option CoseHeader :=
  match v with
  | .map m => parseHeaderEntries m {}
  | _ => none

/-- Modelled from the spec: `coset` protected-header parsing — an empty
byte string is an empty header, otherwise the bytes must hold exactly one
header map; the bytes as received are kept in `original_data` (§4.4.3,
AAD stability). -/
def parseProtected (b : Bytes) : Option ProtectedHeader :=
  if b = [] then some { original_data := some [], header := {} }
  else
    match cborFromBytes b with
    | some v =>
      match parseHeaderMap v with
      | some h => some { original_data := some b, header := h }
      | none => none
    | none => none

/-- Modelled from the spec: the `COSE_Sign1` structure — a CBOR array
`[protected bstr, unprotected map, payload bstr / nil, signature bstr]`
(RFC 9052, parsed by `coset::CoseSign1`). -/
def parseSign1Struct (v : CborValue) : Option CoseSign1 :=
  match v with
  | .array [.bytes p, um, pl, .bytes sig] =>
    match parseProtected p, parseHeaderMap um with
    | some ph, some uh =>
      match pl with
      | .bytes b => some { protected_ := ph, unprotected := uh, payload := some b, signature := sig }
      | .null => some { protected_ := ph, unprotected := uh, payload := none, signature := sig }
      | _ => none
    | _, _ => none
  | _ => none

/-- Modelled from the spec: the `COSE_Encrypt0` structure — a CBOR array
`[protected bstr, unprotected map, ciphertext bstr / nil]` (RFC 9052,
parsed by `coset::CoseEncrypt0`). -/
def parseEncrypt0Struct (v : CborValue) : Option CoseEncrypt0 :=
  match v with
  | .array [.bytes p, um, ct] =>
    match parseProtected p, parseHeaderMap um with
    | some ph, some uh =>
      match ct with
      | .bytes b => some { protected_ := ph, unprotected := uh, ciphertext := some b }
      | .null => some { protected_ := ph, unprotected := uh, ciphertext := none }
      | _ => none
    | _, _ => none
  | _ => none

/-- Modelled from the spec: `CoseSign1::from_tagged_slice` — CBOR tag 18
wrapping the Sign1 array (§4.4.1). -/
def sign1FromTaggedSlice (bs : Bytes) : Option CoseSign1 :=
  match cborFromBytes bs with
  | some (.tag 18 v) => parseSign1Struct v
  | _ => none

/-- Modelled from the spec: `CoseSign1::from_slice` — the untagged Sign1
array (§4.4.1). -/
def sign1FromSlice (bs : Bytes) : Option CoseSign1 :=
  match cborFromBytes bs with
  | some v => parseSign1Struct v
  | none => none

/-- Modelled from the spec: `CoseEncrypt0::from_tagged_slice` — CBOR tag 16
wrapping the Encrypt0 array (§4.4.1). -/
def encrypt0FromTaggedSlice (bs : Bytes) : Option CoseEncrypt0 :=
  match cborFromBytes bs with
  | some (.tag 16 v) => parseEncrypt0Struct v
  | _ => none

/-- Modelled from the spec: `CoseEncrypt0::from_slice` — the untagged
Encrypt0 array (§4.4.1). -/
def encrypt0FromSlice (bs : Bytes) : Option CoseEncrypt0 :=
  match cborFromBytes bs with
  | some v => parseEncrypt0Struct v
  | none => none

/-- `pipeline/cose.rs` `get_algorithm`: the algorithm from a COSE header,
only when it is an assigned (numeric) algorithm. -/
def get_algorithm (header : CoseHeader) : Option CoseAlg :=
  match header.alg with
  | some (.assigned a) => some (.assigned a)
  | _ => none

/-- `pipeline/cose.rs` `get_key_id`: protected header first, then
unprotected; empty means absent. -/
def get_key_id (protectedHeader : CoseHeader) (unprotectedHeader : CoseHeader) : Option Bytes :=
  if protectedHeader.key_id ≠ [] then some protectedHeader.key_id
  else if unprotectedHeader.key_id ≠ [] then some unprotectedHeader.key_id
  else none

/-- `pipeline/cose.rs` `parse_x509_certs`: a single certificate byte string
or an array of them; an array with no byte strings yields `none`. -/
def parse_x509_certs (value : CborValue) : Option (List Bytes) :=
  match value with
  | .bytes cert => some [cert]
  | .array certs =>
    let result := certs.filterMap fun v =>
      match v with
      | .bytes cert => some cert
      | _ => none
    if result.isEmpty then none else some result
  | _ => none

/-- `pipeline/cose.rs` `parse_cert_hash`: `[algorithm, hash_value]` with a
numeric or named algorithm and a byte-string hash. -/
def parse_cert_hash (value : CborValue) : Option CertificateHash :=
  match value with
  | .array (a0 :: a1 :: _) =>
    let algorithm :=
      match a0 with
      | .int i => some (CertHashAlgorithm.numeric i)
      | .text s => some (CertHashAlgorithm.named s)
      | _ => none
    let hashValue :=
      match a1 with
      | .bytes h => some h
      | _ => none
    match algorithm, hashValue with
    | some alg, some hash => some { algorithm := alg, hash_value := hash }
    | _, _ => none
  | _ => none

/-- One step of `get_x509_headers`: fold a header's `rest` labels into the
accumulator, first (protected) value winning. -/
def x509Fold (headers : X509Headers) (entry : CoseLabel × CborValue) : X509Headers :=
  match entry with
  | (.int 32, value) =>
    if headers.x5bag.isNone then { headers with x5bag := parse_x509_certs value } else headers
  | (.int 33, value) =>
    if headers.x5chain.isNone then { headers with x5chain := parse_x509_certs value } else headers
  | (.int 34, value) =>
    if headers.x5t.isNone then { headers with x5t := parse_cert_hash value } else headers
  | (.int 35, value) =>
    match value with
    | .text uri => if headers.x5u.isNone then { headers with x5u := some uri } else headers
    | _ => headers
  | _ => headers

/-- `pipeline/cose.rs` `get_x509_headers`: RFC 9360 labels 32..35 from both
header bags, protected taking precedence. -/
def get_x509_headers (protectedHeader : CoseHeader) (unprotectedHeader : CoseHeader) : X509Headers :=
  (protectedHeader.rest ++ unprotectedHeader.rest).foldl x509Fold {}

/-- `pipeline/cose.rs` `build_encrypt0_aad`: canonical CBOR encoding of
`["Encrypt0", protected_bytes, external_aad = empty]`. -/
def build_encrypt0_aad (protectedBytes : Bytes) : Bytes :=
  cborEncodeVal (.array [.text "Encrypt0", .bytes protectedBytes, .bytes []])

/-- Modelled from the spec: `coset`'s `CoseSign1::tbs_data(&[])` — the
`Sig_structure` `["Signature1", protected_bytes, external_aad = empty,
payload]`, canonically CBOR-encoded (§4.4.2); parsed values always carry
their original protected bytes. -/
def tbs_data (s : CoseSign1) : Bytes :=
  cborEncodeVal (.array [.text "Signature1", .bytes (s.protected_.original_data.getD []),
    .bytes [], .bytes (s.payload.getD [])])

/-- `pipeline/cose.rs` `process_sign1`: extract headers, require a payload,
then verify when a verifier is supplied — requiring an explicit protected
algorithm — or report `Skipped`. -/
def process_sign1 (sign1 : CoseSign1) (verifier : Option Verifier) :
    Except Claim169Error CoseResult := do
  let algorithm := get_algorithm sign1.protected_.header
  let key_id := get_key_id sign1.protected_.header sign1.unprotected
  let x509_headers := get_x509_headers sign1.protected_.header sign1.unprotected
  let payload ←
    match sign1.payload with
    | some p => pure p
    | none => throw (Claim169Error.coseParse "COSE_Sign1 has no payload")
  let verification_status ←
    match verifier with
    | some v => do
      let alg ←
        match algorithm with
        | some a => pure a
        | none =>
          throw (Claim169Error.coseParse
            "COSE_Sign1 missing required algorithm in protected header")
      let sig_structure := tbs_data sign1
      match v alg key_id sig_structure sign1.signature with
      | .ok () => pure VerificationStatus.verified
      | .error CryptoError.verificationFailed => pure VerificationStatus.failed
      | .error e => throw (cryptoErrorInto e)
    | none => pure VerificationStatus.skipped
  return { payload, verification_status, algorithm, key_id, x509_headers }

/-- Rank used only for the termination of the `parse_and_verify` /
`process_encrypt0` mutual recursion: the nested call always passes no
decryptor. -/
def decryptorRank : Option Decryptor → Nat
  | some _ => 1
  | none => 0

mutual

/-- `pipeline/cose.rs` `parse_and_verify`: try tagged Sign1, tagged
Encrypt0, untagged Sign1, untagged Encrypt0, in that order; all four
failing is a `CoseParse` error. -/
def parse_and_verify (data : Bytes) (verifier : Option Verifier)
    (decryptor : Option Decryptor) : Except Claim169Error CoseResult :=
  match sign1FromTaggedSlice data with
  | some sign1 => process_sign1 sign1 verifier
  | none =>
    match encrypt0FromTaggedSlice data with
    | some encrypt0 => process_encrypt0 encrypt0 decryptor verifier
    | none =>
      match sign1FromSlice data with
      | some sign1 => process_sign1 sign1 verifier
      | none =>
        match encrypt0FromSlice data with
        | some encrypt0 => process_encrypt0 encrypt0 decryptor verifier
        | none =>
          throw (Claim169Error.coseParse
            "data is not a valid COSE_Sign1 or COSE_Encrypt0 structure")
termination_by 2 * decryptorRank decryptor + 1
decreasing_by all_goals omega

/-- `pipeline/cose.rs` `process_encrypt0`: require a decryptor, an IV
(unprotected first, then protected), a ciphertext, and an explicit
protected algorithm; decrypt, then recurse into a nested Sign1 plaintext
with the verifier, surfacing an explicit inner signature failure as status
`Failed` with the inner headers. -/
def process_encrypt0 (encrypt0 : CoseEncrypt0) (decryptor : Option Decryptor)
    (verifier : Option Verifier) : Except Claim169Error CoseResult :=
  let algorithm := get_algorithm encrypt0.protected_.header
  let key_id := get_key_id encrypt0.protected_.header encrypt0.unprotected
  let x509_headers := get_x509_headers encrypt0.protected_.header encrypt0.unprotected
  match decryptor with
  | none => throw (Claim169Error.decryptionFailed "no decryptor provided")
  | some dec =>
    let nonce? : Except Claim169Error Bytes :=
      if encrypt0.unprotected.iv ≠ [] then .ok encrypt0.unprotected.iv
      else if encrypt0.protected_.header.iv ≠ [] then .ok encrypt0.protected_.header.iv
      else .error (Claim169Error.decryptionFailed "no IV in COSE_Encrypt0")
    match nonce? with
    | .error e => throw e
    | .ok nonce =>
      match encrypt0.ciphertext with
      | none => throw (Claim169Error.decryptionFailed "COSE_Encrypt0 has no ciphertext")
      | some ciphertext =>
        let aad := build_encrypt0_aad (encrypt0.protected_.original_data.getD [])
        match algorithm with
        | none =>
          throw (Claim169Error.coseParse
            "COSE_Encrypt0 missing required algorithm in protected header")
        | some alg =>
          match dec alg key_id nonce aad ciphertext with
          | .error e => throw (Claim169Error.decryptionFailed (cryptoErrorMessage e))
          | .ok plaintext =>
            let is_cose_sign1 :=
              (sign1FromTaggedSlice plaintext).isSome || (sign1FromSlice plaintext).isSome
            if is_cose_sign1 then
              match parse_and_verify plaintext verifier none with
              | .ok inner_result => .ok inner_result
              | .error (Claim169Error.signatureInvalid _) =>
                let inner_sign1 :=
                  match sign1FromTaggedSlice plaintext with
                  | some s => some s
                  | none => sign1FromSlice plaintext
                let inner_alg := inner_sign1.bind fun s => get_algorithm s.protected_.header
                let inner_kid := inner_sign1.bind fun s => get_key_id s.protected_.header s.unprotected
                let inner_x509 :=
                  (inner_sign1.map fun s => get_x509_headers s.protected_.header s.unprotected).getD {}
                .ok { payload := plaintext, verification_status := .failed,
                      algorithm := inner_alg, key_id := inner_kid, x509_headers := inner_x509 }
              | .error e => .error e
            else
              .ok { payload := plaintext, verification_status := .skipped,
                    algorithm := some alg, key_id, x509_headers }
termination_by 2 * decryptorRank decryptor
decreasing_by all_goals (first | omega | (simp only [decryptorRank]; omega))

end

/-- The chunked read loop of `decompress_zlib` / `decompress_brotli`
(`pipeline/decompress.rs`): read up to 8192 bytes at a time, abort with
`DecompressLimitExceeded` once the running total exceeds the limit.  The
external decoder is modelled by the stream of bytes it yields. -/
def decompressChunkLoop (content : Bytes) (maxBytes : Nat) (totalRead : Nat) :
    Except Claim169Error Bytes :=
  if content = [] then .ok []
  else
    let chunk := content.take 8192
    let rest := content.drop 8192
    let total := totalRead + chunk.length
    if total > maxBytes then .error (.decompressLimitExceeded maxBytes)
    else (decompressChunkLoop rest maxBytes total).map (chunk ++ ·)
termination_by content.length
decreasing_by
  simp only [List.length_drop]
  cases content with
  | nil => simp_all
  | cons a tl => simp; omega

/-- `pipeline/decompress.rs` `decompress_zlib`: the external
`flate2::read::ZlibDecoder` is modelled by its outcome — either a read
error (surfaced as `Decompress`) or the full decompressed stream, which the
source reads in 8192-byte chunks under the limit. -/
def decompress_zlib (readResult : Except String Bytes) (maxBytes : Nat) :
    Except Claim169Error Bytes :=
  match readResult with
  | .error e => .error (.decompress e)
  | .ok content => decompressChunkLoop content maxBytes 0

/-- `pipeline/decompress.rs` `decompress` (brotli feature disabled): empty
input passes through; a `0x78` first byte commits to zlib; anything else is
raw and only size-checked.  `inflate` is the zlib-decoder oracle. -/
def decompress (inflate : Bytes → Except String Bytes) (input : Bytes) (maxBytes : Nat) :
    Except Claim169Error (Bytes × DetectedCompression) :=
  if input = [] then .ok ([], .none)
  else if input.headD 0 = 120 then
    (decompress_zlib (inflate input) maxBytes).map fun d => (d, .zlib)
  else if input.length > maxBytes then .error (.decompressLimitExceeded maxBytes)
  else .ok (input, .none)

/-- Modelled from the spec: the `pipeline` module re-export used by
`decode_internal` (`pipeline::decompress` returning plain bytes); the
module file is not in the provided sources, and `decode_internal` consumes
only the bytes — the detected compression is dropped. -/
def pipelineDecompress (inflate : Bytes → Except String Bytes) (input : Bytes)
    (maxBytes : Nat) : Except Claim169Error Bytes :=
  (decompress inflate input maxBytes).map Prod.fst

/-- `pipeline/claim169.rs` `extract_string`. -/
def extract_string (val : CborValue) : Option String :=
  match val with
  | .text s => some s
  | _ => none

/-- `pipeline/claim169.rs` `extract_int` (`i64::try_from(i128).ok()`). -/
def extract_int (val : CborValue) : Option Int :=
  match val with
  | .int i => i64FromInt i
  | _ => none

/-- `pipeline/claim169.rs` `extract_bytes`: bytes, or a hex-encoded text
string. -/
def extract_bytes (val : CborValue) : Option Bytes :=
  match val with
  | .bytes b => some b
  | .text s => hexDecode s
  | _ => none

/-- Rust `u8::try_from(i128).ok()`. -/
def u8TryFrom (i : Int) : Option Nat :=
  if 0 ≤ i ∧ i < 256 then some i.toNat else none

/-- `pipeline/claim169.rs` `extract_best_quality_fingers`: keep integer
array elements that fit `u8` and are at most 10; an empty result is
`None`. -/
def extract_best_quality_fingers (val : CborValue) : Option (List Nat) :=
  match val with
  | .array arr =>
    let result := arr.filterMap fun item =>
      match item with
      | .int i =>
        match u8TryFrom i with
        | some v => if v ≤ 10 then some v else none
        | none => none
      | _ => none
    if result.isEmpty then none else some result
  | _ => none

/-- The field-collection loop of `extract_single_biometric`: keys 0..3 set
data / format / raw sub-format / issuer; a key outside `i64` aborts the
whole entry (the source's `.ok()?`), non-integer keys are skipped. -/
def extractBioFields :
    List (CborValue × CborValue) →
    Option Bytes × Option BiometricFormat × Option Int × Option String →
    Option (Option Bytes × Option BiometricFormat × Option Int × Option String)
  | [], st => some st
  | (key, val) :: tl, (data, format, subRaw, issuer) =>
    match key with
    | .int i =>
      match i64FromInt i with
      | none => none
      | some k =>
        if k = 0 then extractBioFields tl (extract_bytes val, format, subRaw, issuer)
        else if k = 1 then
          extractBioFields tl (data, (extract_int val).bind biometricFormatTryFrom, subRaw, issuer)
        else if k = 2 then extractBioFields tl (data, format, extract_int val, issuer)
        else if k = 3 then extractBioFields tl (data, format, subRaw, extract_string val)
        else extractBioFields tl (data, format, subRaw, issuer)
    | _ => extractBioFields tl (data, format, subRaw, issuer)

/-- `pipeline/claim169.rs` `extract_single_biometric`: a CBOR map with a
mandatory `data` entry (key 0); format and raw sub-format combine via
`BiometricSubFormat::from_format_and_value`. -/
def extract_single_biometric (val : CborValue) : Option Biometric :=
  match val with
  | .map m =>
    match extractBioFields m (none, none, none, none) with
    | none => none
    | some (dataOpt, format, subRaw, issuer) =>
      match dataOpt with
      | none => none
      | some data =>
        let sub_format :=
          match format, subRaw with
          | some f, some raw => some (biometricSubFormatFrom f raw)
          | _, _ => none
        some { data, format, sub_format, issuer }
  | _ => none

/-- `pipeline/claim169.rs` `extract_biometrics`: a single map becomes a
one-entry sequence; an array is filtered entry-wise; an empty result is
`None`. -/
def extract_biometrics (val : CborValue) : Option (List Biometric) :=
  match val with
  | .map _ => (extract_single_biometric val).map fun b => [b]
  | .array arr =>
    let biometrics := arr.filterMap extract_single_biometric
    if biometrics.isEmpty then none else some biometrics
  | _ => none

mutual

/-- `pipeline/claim169.rs` `cbor_to_json`: the JSON projection used for the
unknown-field bag — integers within `i64` pass through, bytes become
base64 strings, finite floats pass through, arrays and maps recurse
dropping unconvertible elements, tags convert to nothing.  (The external
`serde_json` map is modelled as an insertion-ordered association list.) -/
def cbor_to_json : CborValue → Option Json
  | .int i => (i64FromInt i).map Json.num
  | .text s => some (.str s)
  | .bool b => some (.bool b)
  | .null => some .null
  | .float f => if f.isFinite then some (.fnum f) else none
  | .bytes b => some (.str (base64Encode b))
  | .array arr => some (.arr (cborListToJson arr))
  | .map m => some (.obj (cborMapToJson m))
  | .tag _ _ => none

/-- The array recursion of `cbor_to_json` (`filter_map`). -/
def cborListToJson : List CborValue → List Json
  | [] => []
  | v :: tl =>
    match cbor_to_json v with
    | some j => j :: cborListToJson tl
    | none => cborListToJson tl

/-- The map recursion of `cbor_to_json`: text keys pass, integer keys are
stringified, other keys are skipped; unconvertible values are skipped. -/
def cborMapToJson : List (CborValue × CborValue) → List (String × Json)
  | [] => []
  | (k, v) :: tl =>
    match (match k with
           | .text s => some s
           | .int i => some (toString i)
           | _ => none : Option String) with
    | none => cborMapToJson tl
    | some ks =>
      match cbor_to_json v with
      | some j => (ks, j) :: cborMapToJson tl
      | none => cborMapToJson tl

end

/-- `HashMap::insert` on the association-list model of the unknown-field
map: replace an existing key's value, else add the binding. -/
def assocInsert : List (Int × Json) → Int → Json → List (Int × Json)
  | [], k, j => [(k, j)]
  | (k', j') :: tl, k, j =>
    if k' = k then (k, j) :: tl else (k', j') :: assocInsert tl k j

/-- Dispatch of one `transform` map entry onto the typed record
(`pipeline/claim169.rs`, the `match key_int` arms): keys 1..23 set the
demographic fields, 50..65 the biometric slots unless skipped, anything
else goes to the unknown-field bag when convertible. -/
def transformApply (claim : Claim169) (k : Int) (val : CborValue) (skip : Bool) : Claim169 :=
  if k = 1 then { claim with id := extract_string val }
  else if k = 2 then { claim with version := extract_string val }
  else if k = 3 then { claim with language := extract_string val }
  else if k = 4 then { claim with full_name := extract_string val }
  else if k = 5 then { claim with first_name := extract_string val }
  else if k = 6 then { claim with middle_name := extract_string val }
  else if k = 7 then { claim with last_name := extract_string val }
  else if k = 8 then { claim with date_of_birth := extract_string val }
  else if k = 9 then { claim with gender := (extract_int val).bind genderTryFrom }
  else if k = 10 then { claim with address := extract_string val }
  else if k = 11 then { claim with email := extract_string val }
  else if k = 12 then { claim with phone := extract_string val }
  else if k = 13 then { claim with nationality := extract_string val }
  else if k = 14 then { claim with marital_status := (extract_int val).bind maritalStatusTryFrom }
  else if k = 15 then { claim with guardian := extract_string val }
  else if k = 16 then { claim with photo := extract_bytes val }
  else if k = 17 then { claim with photo_format := (extract_int val).bind photoFormatTryFrom }
  else if k = 18 then { claim with best_quality_fingers := extract_best_quality_fingers val }
  else if k = 19 then { claim with secondary_full_name := extract_string val }
  else if k = 20 then { claim with secondary_language := extract_string val }
  else if k = 21 then { claim with location_code := extract_string val }
  else if k = 22 then { claim with legal_status := extract_string val }
  else if k = 23 then { claim with country_of_issuance := extract_string val }
  else if 50 ≤ k ∧ k ≤ 65 then
    if skip then claim
    else if k = 50 then { claim with right_thumb := extract_biometrics val }
    else if k = 51 then { claim with right_pointer_finger := extract_biometrics val }
    else if k = 52 then { claim with right_middle_finger := extract_biometrics val }
    else if k = 53 then { claim with right_ring_finger := extract_biometrics val }
    else if k = 54 then { claim with right_little_finger := extract_biometrics val }
    else if k = 55 then { claim with left_thumb := extract_biometrics val }
    else if k = 56 then { claim with left_pointer_finger := extract_biometrics val }
    else if k = 57 then { claim with left_middle_finger := extract_biometrics val }
    else if k = 58 then { claim with left_ring_finger := extract_biometrics val }
    else if k = 59 then { claim with left_little_finger := extract_biometrics val }
    else if k = 60 then { claim with right_iris := extract_biometrics val }
    else if k = 61 then { claim with left_iris := extract_biometrics val }
    else if k = 62 then { claim with face := extract_biometrics val }
    else if k = 63 then { claim with right_palm := extract_biometrics val }
    else if k = 64 then { claim with left_palm := extract_biometrics val }
    else { claim with voice := extract_biometrics val }
  else
    match cbor_to_json val with
    | some j => { claim with unknown_fields := assocInsert claim.unknown_fields k j }
    | none => claim

/-- The entry loop of `transform`: integer keys must fit `i64`
(`Claim169Invalid` otherwise), non-integer keys are `Claim169Invalid`. -/
def transformEntries (entries : List (CborValue × CborValue)) (skip : Bool)
    (claim : Claim169) : Except Claim169Error Claim169 :=
  match entries with
  | [] => .ok claim
  | (key, val) :: tl =>
    match key with
    | .int i =>
      match i64FromInt i with
      | none => .error (.claim169Invalid s!"claim 169 key {i} is out of valid range")
      | some k => transformEntries tl skip (transformApply claim k val skip)
    | _ => .error (.claim169Invalid "claim 169 keys must be integers")

/-- `pipeline/claim169.rs` `transform`: the Claim 169 CBOR value must be a
map with integer keys. -/
def transform (value : CborValue) (skip_biometrics : Bool) : Except Claim169Error Claim169 :=
  match value with
  | .map m => transformEntries m skip_biometrics {}
  | _ => .error (.claim169Invalid "claim 169 is not a CBOR map")

/-- Result of the CWT stage (meta plus the claim-169 CBOR value). -/
structure CwtResult where
  meta : CwtMeta
  claim_169 : CborValue

/-- Modelled from the spec: the CWT entry walk (§4.2, §3.2) — claim keys
1 iss, 2 sub, 4 exp, 5 nbf, 6 iat with text/int coercion, claim key 169
carries the Claim 169 value; the crate's CWT module is not in the provided
sources. -/
def cwtEntries : List (CborValue × CborValue) → CwtMeta → Option CborValue →
    CwtMeta × Option CborValue
  | [], meta, c => (meta, c)
  | (key, val) :: tl, meta, c =>
    match key with
    | .int 1 => cwtEntries tl { meta with issuer := extract_string val } c
    | .int 2 => cwtEntries tl { meta with subject := extract_string val } c
    | .int 4 => cwtEntries tl { meta with expires_at := extract_int val } c
    | .int 5 => cwtEntries tl { meta with not_before := extract_int val } c
    | .int 6 => cwtEntries tl { meta with issued_at := extract_int val } c
    | .int 169 => cwtEntries tl meta (some val)
    | _ => cwtEntries tl meta c

/-- Modelled from the spec: `pipeline::cwt_parse` (§4.2) — parse the COSE
payload as a CBOR map, lift the meta claims, and require claim key 169
(`Claim169NotFound` when absent). -/
def cwt_parse (payload : Bytes) : Except Claim169Error CwtResult :=
  match cborFromBytes payload with
  | some (.map m) =>
    let (meta, c) := cwtEntries m {} none
    match c with
    | some v => .ok { meta, claim_169 := v }
    | none => .error .claim169NotFound
  | some _ => .error (.cwtParse "CWT payload is not a CBOR map")
  | none => .error (.cborParse "invalid CBOR in CWT payload")

/-- The `UnknownFields` warning text (the source formats the count and the
key list from the hash map; the key enumeration order of the Rust `HashMap`
is not modelled, so only the count appears here). -/
def unknownFieldsMessage (claim169 : Claim169) : String :=
  let n := claim169.unknown_fields.length
  s!"Found {n} unknown fields"

/-- Two's-complement reduction of an unbounded integer into the `i64`
range: how a release-build Rust `i64` operation wraps on overflow. -/
def wrapI64 (z : Int) : Int := (z + 2 ^ 63) % 2 ^ 64 - 2 ^ 63

/-- Release-build Rust `i64` addition: the mathematical sum, wrapped. -/
def addI64 (a b : Int) : Int := wrapI64 (a + b)

/-- The `nbf` half of `decode_internal`'s step 6: `now + skew < nbf` is
`NotYetValid`, with the `i64` sum `now + skew` wrapping on overflow. -/
def nbfGate (now : Int) (skew : Int) (meta : CwtMeta) : Except Claim169Error Unit :=
  match meta.not_before with
  | some nbf => if addI64 now skew < nbf then .error (.notYetValid nbf) else .ok ()
  | none => .ok ()

/-- `decode_internal`'s step 6 (timestamp validation): when enabled, `exp`
is checked first (`now > exp + skew` is `Expired`), then `nbf`; the `i64`
sum `exp + skew` wraps on overflow as in a release build. -/
def timestampGate (now : Int) (options : DecodeOptions) (meta : CwtMeta) :
    Except Claim169Error Unit :=
  if options.validate_timestamps then
    let skew := options.clock_skew_tolerance_seconds
    match meta.expires_at with
    | some exp => if now > addI64 exp skew then .error (.expired exp) else nbfGate now skew meta
    | none => nbfGate now options.clock_skew_tolerance_seconds meta
  else .ok ()

/-- The warning list `decode_internal` accumulates, in push order:
timestamp validation disabled, biometrics skipped, unknown fields found. -/
def decodeWarnings (options : DecodeOptions) (claim169 : Claim169) : List Warning :=
  (if options.validate_timestamps then []
   else [⟨.timestampValidationSkipped, "Timestamp validation was disabled"⟩]) ++
  (if options.skip_biometrics then [⟨.biometricsSkipped, "Biometric data was skipped"⟩]
   else []) ++
  (if claim169.unknown_fields.isEmpty = false then
     [⟨.unknownFields, unknownFieldsMessage claim169⟩]
   else [])

/-- `lib.rs` `decode_internal`: the decode orchestrator.  Two ambient
effects are made explicit parameters: `inflate` models the external zlib
decoder and `now` models `SystemTime::now()` in epoch seconds.  Rust `?`
propagation is written as explicit matches. -/
def decode_internal (inflate : Bytes → Except String Bytes) (now : Int) (qr_text : String)
    (verifier : Option Verifier) (decryptor : Option Decryptor) (options : DecodeOptions) :
    Except Claim169Error DecodeResult :=
  match base45_decode qr_text with
  | .error e => .error e
  | .ok compressed =>
    match pipelineDecompress inflate compressed options.max_decompressed_bytes with
    | .error e => .error e
    | .ok cose_bytes =>
      match parse_and_verify cose_bytes verifier decryptor with
      | .error e => .error e
      | .ok cose_result =>
        if options.allow_unverified = false ∧ cose_result.verification_status = .skipped then
          .error (.signatureInvalid "verification required but no verifier provided")
        else if cose_result.verification_status = .failed then
          .error (.signatureInvalid "signature verification failed")
        else
          match cwt_parse cose_result.payload with
          | .error e => .error e
          | .ok cwt_result =>
            match timestampGate now options cwt_result.meta with
            | .error e => .error e
            | .ok () =>
              match transform cwt_result.claim_169 options.skip_biometrics with
              | .error e => .error e
              | .ok claim169 =>
                .ok { claim169, cwt_meta := cwt_result.meta,
                      verification_status := cose_result.verification_status,
                      warnings := decodeWarnings options claim169 }


/-- A zlib-decoder oracle that always fails; concrete inputs below never
take the zlib path (their first byte is the COSE tag `0xD2`, not `0x78`). -/
def noInflate : Bytes → Except String Bytes := fun _ => .error "no zlib decoder"

/-- Whether a character list begins with a pattern. -/
def charsStart : List Char → List Char → Bool
  | _, [] => true
  | [], _ :: _ => false
  | h :: t, p :: q => h == p && charsStart t q

/-- Whether a character list contains a pattern as a contiguous run. -/
def charsContain : List Char → List Char → Bool
  | [], pat => pat.isEmpty
  | h :: t, pat => charsStart (h :: t) pat || charsContain t pat

/-- Whether an error message mentions the algorithm (substring check). -/
def mentionsAlgorithm (s : String) : Bool :=
  charsContain s.data "algorithm".data

/-- Whether an error is a `CoseParse` error. -/
def isCoseParse : Claim169Error → Bool
  | .coseParse _ => true
  | _ => false

/-- Whether a COSE-stage outcome is a `CoseParse` error. -/
def errIsCoseParse (r : Except Claim169Error CoseResult) : Bool :=
  match r with
  | .error e => isCoseParse e
  | .ok _ => false

/-- Modelled from the spec: the warning vocabulary §4.6.1 step 8 describes
(`UnknownFields`, `BiometricsSkipped`, `TimestampValidationSkipped`,
`NonStandardCompression`) plus the source's `ExpiringSoon`. -/
inductive SpecWarningCode where
  | expiringSoon
  | unknownFields
  | timestampValidationSkipped
  | biometricsSkipped
  | nonStandardCompression
deriving DecidableEq

/-- The evident reading of the source's warning codes in the spec's
vocabulary. -/
def warningCodeToSpec : WarningCode → SpecWarningCode
  | .expiringSoon => .expiringSoon
  | .unknownFields => .unknownFields
  | .timestampValidationSkipped => .timestampValidationSkipped
  | .biometricsSkipped => .biometricsSkipped

/-- A Claim 169 key outside the assigned ranges 1..23 and 50..65 (the
spec's notion of an unknown key). -/
def specUnknownKey (k : Int) : Prop :=
  ¬(1 ≤ k ∧ k ≤ 23) ∧ ¬(50 ≤ k ∧ k ≤ 65)

instance (k : Int) : Decidable (specUnknownKey k) := by
  unfold specUnknownKey; infer_instance

/-- The per-entry step of the expected unknown-field bag. -/
def unknownBagStep (bag : List (Int × Json)) (p : CborValue × CborValue) :
    List (Int × Json) :=
  match p.1 with
  | .int k =>
    if specUnknownKey k ∧ inI64 k then
      match cbor_to_json p.2 with
      | some j => assocInsert bag k j
      | none => bag
    else bag
  | _ => bag

/-- The expected unknown-field bag of a Claim 169 map, per the spec's
words: every integer key outside the assigned ranges whose value converts
to JSON is preserved (later duplicates replacing earlier ones, as
`HashMap::insert` does). -/
def unknownBag (entries : List (CborValue × CborValue)) : List (Int × Json) :=
  entries.foldl unknownBagStep []

/-- The elements the claim says `best_quality_fingers` keeps: the integer
elements with value in `[0, 10]`, in their original order. -/
def bqfSpecFilter (arr : List CborValue) : List Nat :=
  arr.filterMap fun item =>
    match item with
    | .int i => if 0 ≤ i ∧ i ≤ 10 then some i.toNat else none
    | _ => none

/-- A verifier that accepts every signature. -/
def passVerifier : Verifier := fun _ _ _ _ => .ok ()

/-- A verifier that reports `VerificationFailed` on every signature. -/
def failVerifier : Verifier := fun _ _ _ _ => .error .verificationFailed

/-- A decryptor returning a fixed plaintext. -/
def fixedDecryptor (pt : Bytes) : Decryptor := fun _ _ _ _ _ => .ok pt

/-- A Sign1 with no payload and no protected algorithm. -/
def noPayloadSign1 : CoseSign1 := {}

/-- A Sign1 with a payload but no protected algorithm, and an algorithm
only in the unprotected header. -/
def noAlgSign1 : CoseSign1 :=
  { payload := some [1], unprotected := { alg := some (.assigned (-8)) } }

/-- An Encrypt0 with no algorithm, no IV in either header, and no
ciphertext. -/
def bareEncrypt0 : CoseEncrypt0 := {}

/-- An Encrypt0 with an IV but no ciphertext and no algorithm. -/
def noCtEncrypt0 : CoseEncrypt0 := { unprotected := { iv := [0] } }

/-- An Encrypt0 with an IV and a ciphertext but no algorithm. -/
def noAlgEncrypt0 : CoseEncrypt0 :=
  { unprotected := { iv := [0] }, ciphertext := some [1] }

/-- Serialized protected header carrying algorithm `-8` (EdDSA). -/
def edDsaProtectedBytes : Bytes := cborEncodeVal (.map [(.int 1, .int (-8))])

/-- A concrete tagged inner Sign1: protected algorithm `-8`, payload
`[1, 2]`, signature `[3]`. -/
def innerSign1Bytes : Bytes :=
  cborEncodeVal (.tag 18 (.array
    [.bytes edDsaProtectedBytes, .map [], .bytes [1, 2], .bytes [3]]))

/-- The structure `innerSign1Bytes` parses to. -/
def innerSign1 : CoseSign1 :=
  { protected_ := { original_data := some edDsaProtectedBytes,
                    header := { alg := some (.assigned (-8)) } },
    unprotected := {},
    payload := some [1, 2],
    signature := [3] }

/-- A concrete outer Encrypt0 carrying algorithm `3` (A256GCM), an IV and
a ciphertext. -/
def outerEncrypt0 : CoseEncrypt0 :=
  { protected_ := { original_data := some (cborEncodeVal (.map [(.int 1, .int 3)])),
                    header := { alg := some (.assigned 3) } },
    unprotected := { iv := [0, 0, 0] },
    ciphertext := some [9] }

/-- Tagged Sign1 COSE bytes around a CWT payload: empty protected header,
empty unprotected map, zero signature byte. -/
def unsignedSign1Bytes (cwt : CborValue) : Bytes :=
  cborEncodeVal (.tag 18 (.array [.bytes [], .map [], .bytes (cborEncodeVal cwt), .bytes [0]]))

/-- QR text for an unsigned Sign1 around a CWT payload. -/
def unsignedQr (cwt : CborValue) : String := base45Encode (unsignedSign1Bytes cwt)

/-- A minimal CWT: `exp = 2000000000`, Claim 169 `{1: "X"}`. -/
def cwtMinimal : CborValue :=
  .map [(.int 4, .int 2000000000), (.int 169, .map [(.int 1, .text "X")])]

/-- A CWT expiring at `1000` with Claim 169 `{1: "X"}`. -/
def cwtExpiring : CborValue :=
  .map [(.int 4, .int 1000), (.int 169, .map [(.int 1, .text "X")])]

/-- A CWT with `exp = 10` and `nbf = 99999`: expired before it becomes
valid. -/
def cwtExpNbfClash : CborValue :=
  .map [(.int 4, .int 10), (.int 5, .int 99999), (.int 169, .map [(.int 1, .text "X")])]

/-- A never-expiring CWT in the spec's sense: `exp = i64::MAX`. -/
def cwtNeverExpires : CborValue :=
  .map [(.int 4, .int (2 ^ 63 - 1)), (.int 169, .map [(.int 1, .text "X")])]

/-- The structure the tagged bytes of `unsignedSign1Bytes` parse to. -/
def unsignedSign1Struct (cwt : CborValue) : CoseSign1 :=
  { protected_ := { original_data := some [] }, unprotected := {},
    payload := some (cborEncodeVal cwt), signature := [0] }

/-- The COSE-stage result of an unsigned Sign1 decoded without a
verifier. -/
def unsignedCoseResult (cwt : CborValue) : CoseResult :=
  { payload := cborEncodeVal cwt, verification_status := .skipped,
    algorithm := none, key_id := none, x509_headers := {} }

/-- Options allowing unverified decoding. -/
def allowUnverifiedOptions : DecodeOptions := { allow_unverified := true }

/-- Options allowing unverified decoding with a 600-second clock-skew
tolerance. -/
def skewOptions : DecodeOptions :=
  { allow_unverified := true, clock_skew_tolerance_seconds := 600 }

/-- Options allowing unverified decoding and skipping biometrics. -/
def skipBioOptions : DecodeOptions :=
  { allow_unverified := true, skip_biometrics := true }

/-- The decode result of `unsignedQr cwtMinimal` under
`allowUnverifiedOptions`. -/
def minimalDecodeResult : DecodeResult :=
  { claim169 := { id := some "X" }, cwt_meta := { expires_at := some 2000000000 },
    verification_status := .skipped, warnings := [] }

/-- The decode result of `unsignedQr cwtMinimal` under `skipBioOptions`. -/
def skipBioDecodeResult : DecodeResult :=
  { claim169 := { id := some "X" }, cwt_meta := { expires_at := some 2000000000 },
    verification_status := .skipped,
    warnings := [⟨.biometricsSkipped, "Biometric data was skipped"⟩] }

/-- A CWT whose Claim 169 map carries only the unknown key 99. -/
def cwtUnknownKey : CborValue :=
  .map [(.int 4, .int 2000000000), (.int 169, .map [(.int 99, .int 7)])]

/-- The decode result of `unsignedQr cwtUnknownKey` under
`allowUnverifiedOptions`. -/
def unknownKeyDecodeResult : DecodeResult :=
  { claim169 := { unknown_fields := [(99, .num 7)] },
    cwt_meta := { expires_at := some 2000000000 },
    verification_status := .skipped,
    warnings := [⟨.unknownFields, "Found 1 unknown fields"⟩] }

/-- Whether an `Except` outcome is a success. -/
def exceptIsOk {e a : Type} : Except e a → Bool
  | .ok _ => true
  | .error _ => false

/-! Helper lemmas. -/


lemma bqf_filter_eq (arr : List CborValue) :
    (arr.filterMap fun item =>
      match item with
      | .int i =>
        match u8TryFrom i with
        | some v => if v ≤ 10 then some v else none
        | none => none
      | _ => none) = bqfSpecFilter arr := by
  unfold bqfSpecFilter
  congr 1
  funext item
  cases item <;> try rfl
  rename_i i
  by_cases h : 0 ≤ i ∧ i < 256
  · simp only [u8TryFrom, if_pos h]
    split_ifs <;> first | rfl | omega
  · have h2 : ¬(0 ≤ i ∧ i ≤ 10) := by omega
    simp only [u8TryFrom, if_neg h, if_neg h2]

lemma extractBioFields_keeps_data (m : List (CborValue × CborValue)) :
    ∀ (st : Option Bytes × Option BiometricFormat × Option Int × Option String),
      (∀ p ∈ m, p.1 ≠ CborValue.int 0) →
      extractBioFields m st = none ∨
      ∃ st', extractBioFields m st = some st' ∧ st'.1 = st.1 := by
  induction m with
  | nil =>
    intro st _
    exact Or.inr ⟨st, rfl, rfl⟩
  | cons p tl ih =>
    intro st h
    obtain ⟨key, val⟩ := p
    obtain ⟨data, format, subRaw, issuer⟩ := st
    have htl : ∀ p ∈ tl, p.1 ≠ CborValue.int 0 := fun q hq => h q (List.mem_cons_of_mem _ hq)
    cases key with
    | int i =>
      have hne : i ≠ 0 := by
        intro h0
        exact h (CborValue.int i, val) (List.mem_cons_self _ _) (by rw [h0])
      by_cases hr : inI64 i
      · have hstep : extractBioFields ((CborValue.int i, val) :: tl) (data, format, subRaw, issuer) =
            if i = 1 then
              extractBioFields tl (data, (extract_int val).bind biometricFormatTryFrom, subRaw, issuer)
            else if i = 2 then extractBioFields tl (data, format, extract_int val, issuer)
            else if i = 3 then extractBioFields tl (data, format, subRaw, extract_string val)
            else extractBioFields tl (data, format, subRaw, issuer) := by
          simp [extractBioFields, i64FromInt, hr, hne]
        rw [hstep]
        split_ifs <;> exact ih _ htl
      · exact Or.inl (by simp [extractBioFields, i64FromInt, hr])
    | bytes b => exact ih _ htl
    | float f => exact ih _ htl
    | text s => exact ih _ htl
    | bool b => exact ih _ htl
    | null => exact ih _ htl
    | tag t v => exact ih _ htl
    | array vs => exact ih _ htl
    | map mm => exact ih _ htl

/-! Theorems for the claims. -/

/-- C9: for every CBOR array decoded as `best_quality_fingers` (key 18),
the kept elements are exactly the integer elements with value in `[0, 10]`,
in their original order (an all-dropped array leaves the field empty);
out-of-range values are dropped silently and the key-18 dispatch never
produces an error. -/
theorem C9_best_quality_fingers (arr : List CborValue) :
    (extract_best_quality_fingers (.array arr) =
      if (bqfSpecFilter arr).isEmpty then none else some (bqfSpecFilter arr)) ∧
    ∀ (claim : Claim169) (skip : Bool),
      transformApply claim 18 (.array arr) skip =
        { claim with best_quality_fingers := extract_best_quality_fingers (.array arr) } := by
  constructor
  · show (if _ then none else _) = _
    rw [bqf_filter_eq]
  · intro claim skip
    rfl

/-- C10: a biometric entry map lacking the data field (key 0) is dropped;
a biometric slot never decodes to `Some` of an empty sequence — an empty
array, an all-dropped array, and an unexpected value type all yield
`None`. -/
theorem C10_biometric_slots (m : List (CborValue × CborValue)) (arr : List CborValue)
    (v : CborValue) :
    ((∀ p ∈ m, p.1 ≠ CborValue.int 0) → extract_single_biometric (.map m) = none) ∧
    (∀ l, extract_biometrics v = some l → l ≠ []) ∧
    (arr.filterMap extract_single_biometric = [] → extract_biometrics (.array arr) = none) ∧
    ((∀ m', v ≠ .map m') → (∀ a, v ≠ .array a) → extract_biometrics v = none) := by
  refine ⟨?_, ?_, ?_, ?_⟩
  · intro h
    rcases extractBioFields_keeps_data m (none, none, none, none) h with hnone | ⟨st', hst, hdata⟩
    · simp only [extract_single_biometric, hnone]
    · obtain ⟨d, f, sr, is'⟩ := st'
      simp only at hdata
      subst hdata
      simp only [extract_single_biometric, hst]
  · intro l hl
    cases v with
    | map mm =>
      simp only [extract_biometrics] at hl
      cases hsb : extract_single_biometric (.map mm) with
      | none => rw [hsb] at hl; cases hl
      | some b => rw [hsb] at hl; cases hl; simp
    | array a =>
      simp only [extract_biometrics] at hl
      by_cases he : (a.filterMap extract_single_biometric).isEmpty
      · rw [if_pos he] at hl; cases hl
      · rw [if_neg he] at hl
        cases hl
        simpa [List.isEmpty_iff] using he
    | int i => cases hl
    | bytes b => cases hl
    | float f => cases hl
    | text s => cases hl
    | bool b => cases hl
    | null => cases hl
    | tag t vv => cases hl
  · intro h
    simp only [extract_biometrics, h]
    rfl
  · intro hm ha
    cases v with
    | map mm => exact absurd rfl (hm mm)
    | array a => exact absurd rfl (ha a)
    | int i => rfl
    | bytes b => rfl
    | float f => rfl
    | text s => rfl
    | bool b => rfl
    | null => rfl
    | tag t vv => rfl

/-- C10 witness: a concrete entry map without key 0 is dropped; an empty
array and a non-map non-array value yield `None`. -/
theorem C10_biometric_slots_witness :
    extract_single_biometric (.map [(.int 1, .int 0)]) = none ∧
    extract_biometrics (.array ([] : List CborValue)) = none ∧
    extract_biometrics (.int 5) = none := by
  obtain ⟨h1, _, h3, h4⟩ := C10_biometric_slots [(.int 1, .int 0)] [] (.int 5)
  refine ⟨h1 ?_, h3 rfl, h4 (fun _ => by simp) (fun _ => by simp)⟩
  intro p hp
  simp only [List.mem_singleton] at hp
  subst hp
  simp

lemma decompressChunkLoop_spec (n : Nat) :
    ∀ (content : Bytes), content.length ≤ n → ∀ (maxBytes totalRead : Nat),
      totalRead ≤ maxBytes →
      decompressChunkLoop content maxBytes totalRead =
        if totalRead + content.length ≤ maxBytes then .ok content
        else .error (.decompressLimitExceeded maxBytes) := by
  induction n with
  | zero =>
    intro content hl maxBytes t ht
    have hnil : content = [] := List.eq_nil_of_length_eq_zero (Nat.le_zero.mp hl)
    subst hnil
    rw [decompressChunkLoop]
    simp [ht]
  | succ n ih =>
    intro content hl maxBytes t ht
    by_cases hc : content = []
    · subst hc
      rw [decompressChunkLoop]
      simp [ht]
    · rw [decompressChunkLoop, if_neg hc]
      have hlen : 0 < content.length := List.length_pos.mpr hc
      have hchunk : (content.take 8192).length = min 8192 content.length :=
        List.length_take _ _
      have hrest : (content.drop 8192).length = content.length - 8192 :=
        List.length_drop _ _
      by_cases hlim : t + (content.take 8192).length > maxBytes
      · rw [if_pos hlim]
        have : ¬(t + content.length ≤ maxBytes) := by
          have := List.length_take_le 8192 content
          omega
        rw [if_neg this]
      · rw [if_neg hlim]
        have hrec := ih (content.drop 8192) (by omega) maxBytes
          (t + (content.take 8192).length) (by omega)
        rw [hrec]
        by_cases h2 : t + (content.take 8192).length + (content.drop 8192).length ≤ maxBytes
        · rw [if_pos h2]
          have h3 : t + content.length ≤ maxBytes := by
            rw [hrest] at h2
            omega
          rw [if_pos h3]
          show Except.ok (content.take 8192 ++ content.drop 8192) = _
          rw [List.take_append_drop]
        · rw [if_neg h2]
          have h3 : ¬(t + content.length ≤ maxBytes) := by
            rw [hchunk] at h2; omega
          rw [if_neg h3]
          rfl

/-- C5: decompression trips `DecompressLimitExceeded {max_bytes}` exactly
when the decompressed output — or, for raw input, the input itself —
exceeds `max_bytes`; an output of exactly `max_bytes` bytes succeeds. -/
theorem C5_decompress_limit (inflate : Bytes → Except String Bytes)
    (input content : Bytes) (maxBytes : Nat) :
    (input ≠ [] → input.headD 0 = 120 → inflate input = .ok content →
      (decompress inflate input maxBytes = .error (.decompressLimitExceeded maxBytes) ↔
        content.length > maxBytes) ∧
      (content.length ≤ maxBytes →
        decompress inflate input maxBytes = .ok (content, .zlib))) ∧
    (input ≠ [] → input.headD 0 ≠ 120 →
      (decompress inflate input maxBytes = .error (.decompressLimitExceeded maxBytes) ↔
        input.length > maxBytes) ∧
      (input.length ≤ maxBytes →
        decompress inflate input maxBytes = .ok (input, .none))) := by
  constructor
  · intro hne hmagic hinf
    have hloop := decompressChunkLoop_spec content.length content le_rfl maxBytes 0
      (Nat.zero_le _)
    have hdz : decompress inflate input maxBytes =
        (decompressChunkLoop content maxBytes 0).map fun d => (d, DetectedCompression.zlib) := by
      unfold decompress decompress_zlib
      rw [if_neg hne, if_pos hmagic, hinf]
    constructor
    · rw [hdz, hloop]
      by_cases h : 0 + content.length ≤ maxBytes
      · rw [if_pos h]
        constructor
        · intro hh; cases hh
        · intro hh; omega
      · rw [if_neg h]
        constructor
        · intro _; omega
        · intro _; rfl
    · intro hle
      rw [hdz, hloop, if_pos (by omega)]
      rfl
  · intro hne hmagic
    have hdz : decompress inflate input maxBytes =
        if input.length > maxBytes then .error (.decompressLimitExceeded maxBytes)
        else .ok (input, DetectedCompression.none) := by
      unfold decompress
      rw [if_neg hne, if_neg hmagic]
    constructor
    · rw [hdz]
      by_cases h : input.length > maxBytes
      · rw [if_pos h]
        exact ⟨(fun _ => h), (fun _ => rfl)⟩
      · rw [if_neg h]
        exact ⟨(fun hh => by cases hh), (fun hh => absurd hh h)⟩
    · intro hle
      rw [hdz, if_neg (by omega)]

/-- C5 witness: a three-byte stream against limits 2 and 3, and a two-byte
raw input against limit 1 — the guard trips exactly beyond the limit. -/
theorem C5_decompress_limit_witness :
    decompress (fun _ => .ok [0, 0, 0]) [120] 2 = .error (.decompressLimitExceeded 2) ∧
    decompress (fun _ => .ok [0, 0, 0]) [120] 3 = .ok ([0, 0, 0], .zlib) ∧
    decompress noInflate [210, 0] 1 = .error (.decompressLimitExceeded 1) ∧
    decompress noInflate [210, 0] 2 = .ok ([210, 0], .none) := by
  refine ⟨?_, ?_, ?_, ?_⟩
  · exact ((C5_decompress_limit (fun _ => .ok [0, 0, 0]) [120] [0, 0, 0] 2).1
      (by decide) (by decide) rfl).1.mpr (by decide)
  · exact ((C5_decompress_limit (fun _ => .ok [0, 0, 0]) [120] [0, 0, 0] 3).1
      (by decide) (by decide) rfl).2 (by decide)
  · exact ((C5_decompress_limit noInflate [210, 0] [] 1).2
      (by decide) (by decide)).1.mpr (by decide)
  · exact ((C5_decompress_limit noInflate [210, 0] [] 2).2
      (by decide) (by decide)).2 (by decide)

@[simp] lemma exceptThrow_eq {ε α : Type} (e : ε) : (throw e : Except ε α) = .error e := rfl

@[simp] lemma exceptPure_eq {ε α : Type} (a : α) : (pure a : Except ε α) = .ok a := rfl

@[simp] lemma exceptBind_ok {ε α β : Type} (a : α) (f : α → Except ε β) :
    (Except.ok a : Except ε α) >>= f = f a := rfl

@[simp] lemma exceptBind_error {ε α β : Type} (e : ε) (f : α → Except ε β) :
    (Except.error e : Except ε α) >>= f = .error e := rfl

/-- C2 (amended): for every Sign1 carrying a payload, processed with a
verifier, a missing protected-header algorithm is a `CoseParse` error
mentioning the algorithm — never defaulted, and an algorithm present only
in the unprotected header (the `unprotected` bag is unconstrained here)
does not satisfy the requirement.  A Sign1 with no payload fails earlier
with the `no payload` `CoseParse` error instead. -/
theorem C2_sign1_missing_algorithm (s : CoseSign1) (v : Verifier) (p : Bytes)
    (hpay : s.payload = some p) (halg : get_algorithm s.protected_.header = none) :
    process_sign1 s (some v) =
      .error (.coseParse "COSE_Sign1 missing required algorithm in protected header") ∧
    mentionsAlgorithm "COSE_Sign1 missing required algorithm in protected header" = true := by
  constructor
  · simp [process_sign1, hpay, halg]
  · decide

/-- C2 witness: a concrete Sign1 with a payload, no protected algorithm,
and an algorithm only in the unprotected header, is rejected with the
algorithm-mentioning `CoseParse` error. -/
theorem C2_sign1_missing_algorithm_witness :
    process_sign1 noAlgSign1 (some passVerifier) =
      .error (.coseParse "COSE_Sign1 missing required algorithm in protected header") :=
  (C2_sign1_missing_algorithm noAlgSign1 passVerifier [1] rfl rfl).1

/-- C2 counterexample: a Sign1 with no payload and no protected algorithm,
processed with a verifier, is rejected with the `no payload` `CoseParse`
error, which does not mention the missing algorithm. -/
theorem C2_sign1_missing_algorithm_counterexample :
    process_sign1 noPayloadSign1 (some passVerifier) =
      .error (.coseParse "COSE_Sign1 has no payload") ∧
    mentionsAlgorithm "COSE_Sign1 has no payload" = false := by
  constructor
  · rfl
  · decide

/-- C3 (amended): for every Encrypt0 processed with a decryptor present,
an IV in one of the headers, and a ciphertext, a missing protected-header
algorithm is the algorithm-mentioning `CoseParse` error; when the
decryptor, the IV, or the ciphertext is missing, the corresponding
`DecryptionFailed` error takes precedence over the algorithm check. -/
theorem C3_encrypt0_missing_algorithm (e : CoseEncrypt0) (dec : Decryptor)
    (v : Option Verifier) (ct : Bytes)
    (hiv : e.unprotected.iv ≠ [] ∨ e.protected_.header.iv ≠ [])
    (hct : e.ciphertext = some ct)
    (halg : get_algorithm e.protected_.header = none) :
    process_encrypt0 e (some dec) v =
      .error (.coseParse "COSE_Encrypt0 missing required algorithm in protected header") := by
  by_cases h1 : e.unprotected.iv = []
  · have hp : e.protected_.header.iv ≠ [] := by
      rcases hiv with h | h
      · exact absurd h1 h
      · exact h
    simp [process_encrypt0, h1, hp, hct, halg]
  · simp [process_encrypt0, h1, hct, halg]

/-- C3 witness: a concrete Encrypt0 with a decryptor, IV and ciphertext
but no algorithm is rejected with the `CoseParse` error. -/
theorem C3_encrypt0_missing_algorithm_witness :
    process_encrypt0 noAlgEncrypt0 (some (fixedDecryptor [1])) none =
      .error (.coseParse "COSE_Encrypt0 missing required algorithm in protected header") :=
  C3_encrypt0_missing_algorithm noAlgEncrypt0 (fixedDecryptor [1]) none [1]
    (Or.inl (by decide)) rfl rfl

/-- C3 counterexample: Encrypt0 envelopes without an algorithm that also
lack an IV, lack a ciphertext, or were given no decryptor do not produce
`CoseParse`: the `DecryptionFailed` checks fire first. -/
theorem C3_encrypt0_missing_algorithm_counterexample :
    process_encrypt0 bareEncrypt0 (some (fixedDecryptor [1])) none =
      .error (.decryptionFailed "no IV in COSE_Encrypt0") ∧
    errIsCoseParse (process_encrypt0 bareEncrypt0 (some (fixedDecryptor [1])) none) = false ∧
    process_encrypt0 noCtEncrypt0 (some (fixedDecryptor [1])) none =
      .error (.decryptionFailed "COSE_Encrypt0 has no ciphertext") ∧
    process_encrypt0 bareEncrypt0 none none =
      .error (.decryptionFailed "no decryptor provided") := by
  have h1 : process_encrypt0 bareEncrypt0 (some (fixedDecryptor [1])) none =
      .error (.decryptionFailed "no IV in COSE_Encrypt0") := by
    simp [process_encrypt0, bareEncrypt0]
  refine ⟨h1, ?_, ?_, ?_⟩
  · rw [h1]
    decide
  · simp [process_encrypt0, noCtEncrypt0]
  · simp [process_encrypt0]

lemma sign1FromSlice_no_tagged_encrypt0 (pt : Bytes) (s : CoseSign1)
    (h : sign1FromSlice pt = some s) : encrypt0FromTaggedSlice pt = none := by
  unfold sign1FromSlice at h
  unfold encrypt0FromTaggedSlice
  cases hv : cborFromBytes pt with
  | none => rfl
  | some v =>
    rw [hv] at h
    cases v with
    | array vs => rfl
    | int i => cases h
    | bytes b => cases h
    | float f => cases h
    | text t => cases h
    | bool b => cases h
    | null => cases h
    | tag t vv => simp [parseSign1Struct] at h
    | map mm => cases h

lemma parse_and_verify_of_sign1 (pt : Bytes) (s : CoseSign1) (v : Option Verifier)
    (hparse : sign1FromTaggedSlice pt = some s ∨
      (sign1FromTaggedSlice pt = none ∧ sign1FromSlice pt = some s)) :
    parse_and_verify pt v none = process_sign1 s v := by
  rcases hparse with htag | ⟨hnotag, huntag⟩
  · simp [parse_and_verify, htag]
  · have henc := sign1FromSlice_no_tagged_encrypt0 pt s huntag
    simp [parse_and_verify, hnotag, henc, huntag]

/-- C4: for every Encrypt0 whose decrypted plaintext parses (tagged or
untagged) as a Sign1 with a payload and a protected algorithm, the inner
Sign1 is processed with the inner verifier and the inner result is the
caller-visible result: a passing verifier yields `Verified` with the inner
payload; a verifier reporting `VerificationFailed` yields a non-error
result with status `Failed` carrying the inner algorithm and key id. -/
theorem C4_nested_encrypt0_sign1 (e : CoseEncrypt0) (dec : Decryptor) (ct pt pl : Bytes)
    (s : CoseSign1) (ia : Int) (v1 v2 : Verifier)
    (hiv : e.unprotected.iv ≠ [] ∨ e.protected_.header.iv ≠ [])
    (hct : e.ciphertext = some ct)
    (healg : get_algorithm e.protected_.header ≠ none)
    (hdec : ∀ a k n ad c, dec a k n ad c = .ok pt)
    (hparse : sign1FromTaggedSlice pt = some s ∨
      (sign1FromTaggedSlice pt = none ∧ sign1FromSlice pt = some s))
    (hpay : s.payload = some pl)
    (halg : get_algorithm s.protected_.header = some (.assigned ia)) :
    ((∀ a k d sg, v1 a k d sg = .ok ()) →
      process_encrypt0 e (some dec) (some v1) =
        .ok { payload := pl, verification_status := .verified,
              algorithm := some (.assigned ia),
              key_id := get_key_id s.protected_.header s.unprotected,
              x509_headers := get_x509_headers s.protected_.header s.unprotected }) ∧
    ((∀ a k d sg, v2 a k d sg = .error .verificationFailed) →
      process_encrypt0 e (some dec) (some v2) =
        .ok { payload := pl, verification_status := .failed,
              algorithm := some (.assigned ia),
              key_id := get_key_id s.protected_.header s.unprotected,
              x509_headers := get_x509_headers s.protected_.header s.unprotected }) := by
  obtain ⟨ea, hea⟩ : ∃ a, get_algorithm e.protected_.header = some a :=
    Option.ne_none_iff_exists'.mp healg
  have hsign1 : (sign1FromTaggedSlice pt).isSome || (sign1FromSlice pt).isSome = true := by
    rcases hparse with htag | ⟨_, huntag⟩
    · rw [htag]; rfl
    · rw [huntag]; simp
  have hstep : ∀ (v : Verifier),
      process_encrypt0 e (some dec) (some v) =
        match parse_and_verify pt (some v) none with
        | .ok inner_result => .ok inner_result
        | .error (Claim169Error.signatureInvalid _) =>
          let inner_sign1 :=
            match sign1FromTaggedSlice pt with
            | some s => some s
            | none => sign1FromSlice pt
          let inner_alg := inner_sign1.bind fun s => get_algorithm s.protected_.header
          let inner_kid := inner_sign1.bind fun s => get_key_id s.protected_.header s.unprotected
          let inner_x509 :=
            (inner_sign1.map fun s => get_x509_headers s.protected_.header s.unprotected).getD {}
          .ok { payload := pt, verification_status := .failed,
                algorithm := inner_alg, key_id := inner_kid, x509_headers := inner_x509 }
        | .error e => .error e := by
    intro v
    by_cases h1 : e.unprotected.iv = []
    · have hp : e.protected_.header.iv ≠ [] := by
        rcases hiv with h | h
        · exact absurd h1 h
        · exact h
      simp only [process_encrypt0, h1, hp, hct, hea, hdec, hsign1]
      simp only [if_neg (by simp : ¬([] : Bytes) ≠ []), if_pos hp]
      rw [if_pos (show ((sign1FromTaggedSlice pt).isSome || (sign1FromSlice pt).isSome) = true
        by simpa using hsign1)]
    · simp only [process_encrypt0, hct, hea, hdec, hsign1]
      simp only [if_pos h1]
      rw [if_pos (show ((sign1FromTaggedSlice pt).isSome || (sign1FromSlice pt).isSome) = true
        by simpa using hsign1)]
  constructor
  · intro hok
    rw [hstep v1, parse_and_verify_of_sign1 pt s (some v1) hparse]
    have : process_sign1 s (some v1) =
        .ok { payload := pl, verification_status := .verified,
              algorithm := some (.assigned ia),
              key_id := get_key_id s.protected_.header s.unprotected,
              x509_headers := get_x509_headers s.protected_.header s.unprotected } := by
      simp [process_sign1, hpay, halg, hok]
    rw [this]
  · intro hfail
    rw [hstep v2, parse_and_verify_of_sign1 pt s (some v2) hparse]
    have : process_sign1 s (some v2) =
        .ok { payload := pl, verification_status := .failed,
              algorithm := some (.assigned ia),
              key_id := get_key_id s.protected_.header s.unprotected,
              x509_headers := get_x509_headers s.protected_.header s.unprotected } := by
      simp [process_sign1, hpay, halg, hfail]
    rw [this]

/-- C4 witness: a concrete Encrypt0 whose plaintext is a tagged Sign1 with
algorithm `-8` and payload `[1, 2]`: a passing verifier surfaces
`Verified` with the inner payload, a failing one surfaces status `Failed`
with the inner algorithm and key id. -/
theorem C4_nested_encrypt0_sign1_witness :
    process_encrypt0 outerEncrypt0 (some (fixedDecryptor innerSign1Bytes)) (some passVerifier) =
      .ok { payload := [1, 2], verification_status := .verified,
            algorithm := some (.assigned (-8)),
            key_id := get_key_id innerSign1.protected_.header innerSign1.unprotected,
            x509_headers := get_x509_headers innerSign1.protected_.header innerSign1.unprotected } ∧
    process_encrypt0 outerEncrypt0 (some (fixedDecryptor innerSign1Bytes)) (some failVerifier) =
      .ok { payload := [1, 2], verification_status := .failed,
            algorithm := some (.assigned (-8)),
            key_id := get_key_id innerSign1.protected_.header innerSign1.unprotected,
            x509_headers := get_x509_headers innerSign1.protected_.header innerSign1.unprotected } := by
  have h := C4_nested_encrypt0_sign1 outerEncrypt0 (fixedDecryptor innerSign1Bytes)
    [9] innerSign1Bytes [1, 2] innerSign1 (-8) passVerifier failVerifier
    (Or.inl (by decide)) rfl (by decide) (fun _ _ _ _ _ => rfl)
    (Or.inl rfl) rfl rfl
  exact ⟨h.1 (fun _ _ _ _ => rfl), h.2 (fun _ _ _ _ => rfl)⟩

lemma decode_internal_ok_inversion (inflate : Bytes → Except String Bytes) (now : Int)
    (qr : String) (v : Option Verifier) (d : Option Decryptor) (opts : DecodeOptions)
    (res : DecodeResult) (h : decode_internal inflate now qr v d opts = .ok res) :
    ∃ comp bytes r cwtres claim,
      base45_decode qr = .ok comp ∧
      pipelineDecompress inflate comp opts.max_decompressed_bytes = .ok bytes ∧
      parse_and_verify bytes v d = .ok r ∧
      ¬(opts.allow_unverified = false ∧ r.verification_status = .skipped) ∧
      r.verification_status ≠ .failed ∧
      cwt_parse r.payload = .ok cwtres ∧
      timestampGate now opts cwtres.meta = .ok () ∧
      transform cwtres.claim_169 opts.skip_biometrics = .ok claim ∧
      res = { claim169 := claim, cwt_meta := cwtres.meta,
              verification_status := r.verification_status,
              warnings := decodeWarnings opts claim } := by
  unfold decode_internal at h
  split at h
  next e heq => cases h
  next comp hb =>
  split at h
  next e heq => cases h
  next bytes hd =>
  split at h
  next e heq => cases h
  next r hp =>
  split at h
  next c1 => cases h
  next c1 =>
  split at h
  next c2 => cases h
  next c2 =>
  split at h
  next e heq => cases h
  next cwtres hc =>
  split at h
  next e heq => cases h
  next ht =>
  split at h
  next e heq => cases h
  next claim htr =>
  cases h
  exact ⟨comp, bytes, r, cwtres, claim, hb, hd, hp, c1, c2, hc, ht, htr, rfl⟩

/-- C1: if the COSE stage reports `Skipped` while `allow_unverified` is
off, or reports `Failed` at all, `decode_internal` returns
`SignatureInvalid`; consequently a returned `DecodeResult` never carries
status `Failed`, and carries `Skipped` only under `allow_unverified`. -/
theorem C1_decode_status_policy (inflate : Bytes → Except String Bytes) (now : Int)
    (qr : String) (v : Option Verifier) (d : Option Decryptor) (opts : DecodeOptions) :
    (∀ comp bytes r,
      base45_decode qr = .ok comp →
      pipelineDecompress inflate comp opts.max_decompressed_bytes = .ok bytes →
      parse_and_verify bytes v d = .ok r →
      ((r.verification_status = .skipped ∧ opts.allow_unverified = false →
        decode_internal inflate now qr v d opts =
          .error (.signatureInvalid "verification required but no verifier provided")) ∧
       (r.verification_status = .failed →
        decode_internal inflate now qr v d opts =
          .error (.signatureInvalid "signature verification failed")))) ∧
    (∀ res, decode_internal inflate now qr v d opts = .ok res →
      res.verification_status ≠ .failed ∧
      (res.verification_status = .skipped → opts.allow_unverified = true)) := by
  constructor
  · intro comp bytes r hb hd hp
    constructor
    · intro ⟨hs, ha⟩
      simp only [decode_internal, hb, hd, hp]
      rw [if_pos ⟨ha, hs⟩]
    · intro hf
      have c1 : ¬(opts.allow_unverified = false ∧ r.verification_status = .skipped) := by
        intro ⟨_, hs⟩
        rw [hf] at hs
        cases hs
      simp only [decode_internal, hb, hd, hp]
      rw [if_neg c1, if_pos hf]
  · intro res h
    obtain ⟨comp, bytes, r, cwtres, claim, _, _, _, c1, c2, _, _, _, hres⟩ :=
      decode_internal_ok_inversion inflate now qr v d opts res h
    subst hres
    refine ⟨c2, ?_⟩
    intro hs
    cases hall : opts.allow_unverified with
    | true => rfl
    | false => exact absurd ⟨hall, hs⟩ c1

/-- C1 witness: decoding a concrete unsigned Sign1 without a verifier under
default options (verification required) is `SignatureInvalid`; under
`allow_unverified` it succeeds with status `Skipped`. -/
theorem C1_decode_status_policy_witness :
    decode_internal noInflate 1000 (unsignedQr cwtMinimal) none none {} =
      .error (.signatureInvalid "verification required but no verifier provided") ∧
    decode_internal noInflate 1000 (unsignedQr cwtMinimal) none none allowUnverifiedOptions =
      .ok minimalDecodeResult := by
  have hb : base45_decode (unsignedQr cwtMinimal) = .ok (unsignedSign1Bytes cwtMinimal) := rfl
  have hs1 : sign1FromTaggedSlice (unsignedSign1Bytes cwtMinimal) =
      some (unsignedSign1Struct cwtMinimal) := rfl
  have hpv : parse_and_verify (unsignedSign1Bytes cwtMinimal) none none =
      .ok (unsignedCoseResult cwtMinimal) := by
    simp only [parse_and_verify, hs1]
    rfl
  constructor
  · exact ((C1_decode_status_policy noInflate 1000 (unsignedQr cwtMinimal) none none {}).1
      (unsignedSign1Bytes cwtMinimal) (unsignedSign1Bytes cwtMinimal)
      (unsignedCoseResult cwtMinimal) hb rfl hpv).1 ⟨rfl, rfl⟩
  · have hd : pipelineDecompress noInflate (unsignedSign1Bytes cwtMinimal)
        allowUnverifiedOptions.max_decompressed_bytes = .ok (unsignedSign1Bytes cwtMinimal) := rfl
    simp only [decode_internal, hb, hd, hpv]
    rfl

lemma transformEntries_error_shape (m : List (CborValue × CborValue)) :
    ∀ (skip : Bool) (claim : Claim169) (e : Claim169Error),
      transformEntries m skip claim = .error e → ∃ msg, e = .claim169Invalid msg := by
  induction m with
  | nil => intro skip claim e h; cases h
  | cons p tl ih =>
    intro skip claim e h
    obtain ⟨key, val⟩ := p
    cases key with
    | int i =>
      unfold transformEntries at h
      simp only [] at h
      by_cases hr : inI64 i
      · rw [show i64FromInt i = some i from by simp [i64FromInt, hr]] at h
        exact ih skip _ e h
      · rw [show i64FromInt i = none from by simp [i64FromInt, hr]] at h
        exact ⟨_, (Except.error.injEq _ _ ▸ h.symm : e = _)⟩
    | bytes b => exact ⟨_, (Except.error.injEq _ _ ▸ h.symm : e = _)⟩
    | float f => exact ⟨_, (Except.error.injEq _ _ ▸ h.symm : e = _)⟩
    | text s => exact ⟨_, (Except.error.injEq _ _ ▸ h.symm : e = _)⟩
    | bool b => exact ⟨_, (Except.error.injEq _ _ ▸ h.symm : e = _)⟩
    | null => exact ⟨_, (Except.error.injEq _ _ ▸ h.symm : e = _)⟩
    | tag t v => exact ⟨_, (Except.error.injEq _ _ ▸ h.symm : e = _)⟩
    | array vs => exact ⟨_, (Except.error.injEq _ _ ▸ h.symm : e = _)⟩
    | map mm => exact ⟨_, (Except.error.injEq _ _ ▸ h.symm : e = _)⟩

lemma transform_error_shape (val : CborValue) (skip : Bool) (e : Claim169Error)
    (h : transform val skip = .error e) : ∃ msg, e = .claim169Invalid msg := by
  unfold transform at h
  cases val with
  | map m => exact transformEntries_error_shape m skip {} e h
  | int i => exact ⟨_, (Except.error.injEq _ _ ▸ h.symm : e = _)⟩
  | bytes b => exact ⟨_, (Except.error.injEq _ _ ▸ h.symm : e = _)⟩
  | float f => exact ⟨_, (Except.error.injEq _ _ ▸ h.symm : e = _)⟩
  | text s => exact ⟨_, (Except.error.injEq _ _ ▸ h.symm : e = _)⟩
  | bool b => exact ⟨_, (Except.error.injEq _ _ ▸ h.symm : e = _)⟩
  | null => exact ⟨_, (Except.error.injEq _ _ ▸ h.symm : e = _)⟩
  | tag t v => exact ⟨_, (Except.error.injEq _ _ ▸ h.symm : e = _)⟩
  | array vs => exact ⟨_, (Except.error.injEq _ _ ▸ h.symm : e = _)⟩

lemma wrapI64_eq_of_inI64 (z : Int) (h : inI64 z) : wrapI64 z = z := by
  obtain ⟨h1, h2⟩ := h
  unfold wrapI64
  omega

lemma nbfGate_error_shape (now skew : Int) (meta : CwtMeta) (e : Claim169Error)
    (h : nbfGate now skew meta = .error e) : ∃ nbf, e = .notYetValid nbf := by
  unfold nbfGate at h
  cases hnb : meta.not_before with
  | none => rw [hnb] at h; cases h
  | some nbf =>
    rw [hnb] at h
    simp only [] at h
    by_cases hlt : addI64 now skew < nbf
    · rw [if_pos hlt] at h
      exact ⟨nbf, (Except.error.injEq _ _ ▸ h.symm : e = _)⟩
    · rw [if_neg hlt] at h; cases h

/-- C6 (amended): with timestamp validation on, a non-negative skew, and
the `i64` sums `exp + skew` and `now + skew` not overflowing, once
decoding reaches the timestamp gate, `Expired(exp)` is returned iff
`exp < now − skew` (so `exp = now − skew` is accepted), and
`NotYetValid(nbf)` is returned iff `nbf > now + skew` **and** the `exp`
check did not already fire — when both conditions hold, `Expired` wins.
When `exp + skew` overflows `i64` the wrapped sum goes negative and the
credential is reported `Expired` regardless, see the counterexample. -/
theorem C6_timestamp_validation (inflate : Bytes → Except String Bytes) (now : Int)
    (qr : String) (v : Option Verifier) (d : Option Decryptor) (opts : DecodeOptions)
    (comp bytes : Bytes) (r : CoseResult) (cwtres : CwtResult)
    (hv : opts.validate_timestamps = true)
    (hskew : 0 ≤ opts.clock_skew_tolerance_seconds)
    (h1 : base45_decode qr = .ok comp)
    (h2 : pipelineDecompress inflate comp opts.max_decompressed_bytes = .ok bytes)
    (h3 : parse_and_verify bytes v d = .ok r)
    (h4 : ¬(opts.allow_unverified = false ∧ r.verification_status = .skipped))
    (h5 : ¬(r.verification_status = .failed))
    (h6 : cwt_parse r.payload = .ok cwtres) :
    (∀ exp, cwtres.meta.expires_at = some exp →
      inI64 (exp + opts.clock_skew_tolerance_seconds) →
      (decode_internal inflate now qr v d opts = .error (.expired exp) ↔
        exp < now - opts.clock_skew_tolerance_seconds)) ∧
    (∀ nbf, cwtres.meta.not_before = some nbf →
      inI64 (now + opts.clock_skew_tolerance_seconds) →
      (∀ exp, cwtres.meta.expires_at = some exp →
        inI64 (exp + opts.clock_skew_tolerance_seconds) ∧
        ¬ exp < now - opts.clock_skew_tolerance_seconds) →
      (decode_internal inflate now qr v d opts = .error (.notYetValid nbf) ↔
        now + opts.clock_skew_tolerance_seconds < nbf)) := by
  have hmain : decode_internal inflate now qr v d opts =
      (match timestampGate now opts cwtres.meta with
       | .error e => .error e
       | .ok () =>
         match transform cwtres.claim_169 opts.skip_biometrics with
         | .error e => .error e
         | .ok claim =>
           .ok { claim169 := claim, cwt_meta := cwtres.meta,
                 verification_status := r.verification_status,
                 warnings := decodeWarnings opts claim }) := by
    simp only [decode_internal, h1, h2, h3, h6]
    rw [if_neg h4, if_neg h5]
  have hafter : ∀ (err : Claim169Error),
      (∀ msg, err ≠ .claim169Invalid msg) →
      (match transform cwtres.claim_169 opts.skip_biometrics with
       | .error e => (.error e : Except Claim169Error DecodeResult)
       | .ok claim =>
         .ok { claim169 := claim, cwt_meta := cwtres.meta,
               verification_status := r.verification_status,
               warnings := decodeWarnings opts claim }) ≠ .error err := by
    intro err herr
    cases htr : transform cwtres.claim_169 opts.skip_biometrics with
    | error e =>
      obtain ⟨msg, rfl⟩ := transform_error_shape _ _ _ htr
      simp only []
      intro hcontra
      injection hcontra with hee
      exact herr msg hee.symm
    | ok claim => simp
  constructor
  · intro exp hexp hin
    have hadd : addI64 exp opts.clock_skew_tolerance_seconds =
        exp + opts.clock_skew_tolerance_seconds := wrapI64_eq_of_inI64 _ hin
    by_cases hgt : now > exp + opts.clock_skew_tolerance_seconds
    · have hts : timestampGate now opts cwtres.meta = .error (.expired exp) := by
        simp [timestampGate, hv, hexp, hadd, hgt]
      rw [hmain, hts]
      exact ⟨(fun _ => by omega), (fun _ => rfl)⟩
    · have hts : timestampGate now opts cwtres.meta =
          nbfGate now opts.clock_skew_tolerance_seconds cwtres.meta := by
        simp [timestampGate, hv, hexp, hadd, hgt]
      rw [hmain, hts]
      constructor
      · intro hcontra
        exfalso
        cases hnb : nbfGate now opts.clock_skew_tolerance_seconds cwtres.meta with
        | error e =>
          rw [hnb] at hcontra
          obtain ⟨nbf, rfl⟩ := nbfGate_error_shape _ _ _ _ hnb
          simp at hcontra
        | ok u =>
          obtain ⟨⟩ := u
          rw [hnb] at hcontra
          exact hafter (.expired exp) (fun _ h => by cases h) hcontra
      · intro hlt
        omega
  · intro nbf hnbf hinN hexpok
    have haddN : addI64 now opts.clock_skew_tolerance_seconds =
        now + opts.clock_skew_tolerance_seconds := wrapI64_eq_of_inI64 _ hinN
    have hts : timestampGate now opts cwtres.meta =
        nbfGate now opts.clock_skew_tolerance_seconds cwtres.meta := by
      cases hexp : cwtres.meta.expires_at with
      | none => simp [timestampGate, hv, hexp]
      | some exp =>
        obtain ⟨hinE, h7⟩ := hexpok exp hexp
        have haddE : addI64 exp opts.clock_skew_tolerance_seconds =
            exp + opts.clock_skew_tolerance_seconds := wrapI64_eq_of_inI64 _ hinE
        have hng : ¬(now > exp + opts.clock_skew_tolerance_seconds) := by omega
        simp [timestampGate, hv, hexp, haddE, hng]
    have hnb : nbfGate now opts.clock_skew_tolerance_seconds cwtres.meta =
        if now + opts.clock_skew_tolerance_seconds < nbf then .error (.notYetValid nbf)
        else .ok () := by
      simp only [nbfGate, hnbf, haddN]
    by_cases hlt : now + opts.clock_skew_tolerance_seconds < nbf
    · rw [hmain, hts, hnb, if_pos hlt]
      exact ⟨(fun _ => hlt), (fun _ => rfl)⟩
    · rw [hmain, hts, hnb, if_neg hlt]
      constructor
      · intro hcontra
        exact absurd hcontra (hafter (.notYetValid nbf) (fun _ h => by cases h))
      · intro hcontra
        exact absurd hcontra hlt

/-- C6 witness: `exp = 1000`, `now = 1600`, `skew = 600` — the boundary
credential with `exp = now − skew` is not `Expired` (the instantiated iff
has a false right-hand side). -/
theorem C6_timestamp_validation_witness :
    (decode_internal noInflate 1600 (unsignedQr cwtExpiring) none none skewOptions =
      .error (.expired 1000)) ↔ (1000 : Int) < 1600 - skewOptions.clock_skew_tolerance_seconds := by
  have hs1 : sign1FromTaggedSlice (unsignedSign1Bytes cwtExpiring) =
      some (unsignedSign1Struct cwtExpiring) := rfl
  have hpv : parse_and_verify (unsignedSign1Bytes cwtExpiring) none none =
      .ok (unsignedCoseResult cwtExpiring) := by
    simp only [parse_and_verify, hs1]
    rfl
  exact (C6_timestamp_validation noInflate 1600 (unsignedQr cwtExpiring) none none skewOptions
    (unsignedSign1Bytes cwtExpiring) (unsignedSign1Bytes cwtExpiring)
    (unsignedCoseResult cwtExpiring)
    { meta := { expires_at := some 1000 }, claim_169 := .map [(.int 1, .text "X")] }
    rfl (by decide) rfl rfl hpv (by simp [unsignedCoseResult, skewOptions])
    (by simp [unsignedCoseResult]) rfl).1 1000 rfl (by decide)

/-- C6 counterexample, two scenarios.  First, `exp = 10`, `nbf = 99999`,
`now = 5000`, `skew = 0`: both the expiry and the not-yet-valid conditions
hold, and the decoder returns `Expired`, not `NotYetValid` as the claim's
second iff demands.  Second, `exp = i64::MAX` (the spec's never-expiring
credential), `now = 1600`, `skew = 600`: the release-build `i64` sum
`exp + skew` wraps negative, so the decoder returns `Expired` although
`exp ≥ now − skew`, refuting the claim's first iff when the sum
overflows. -/
theorem C6_timestamp_validation_counterexample :
    decode_internal noInflate 5000 (unsignedQr cwtExpNbfClash) none none allowUnverifiedOptions =
      .error (.expired 10) ∧
    ((10 : Int) < 5000 - allowUnverifiedOptions.clock_skew_tolerance_seconds ∧
      5000 + allowUnverifiedOptions.clock_skew_tolerance_seconds < 99999) ∧
    decode_internal noInflate 5000 (unsignedQr cwtExpNbfClash) none none allowUnverifiedOptions ≠
      .error (.notYetValid 99999) ∧
    decode_internal noInflate 1600 (unsignedQr cwtNeverExpires) none none skewOptions =
      .error (.expired (2 ^ 63 - 1)) ∧
    ¬ ((2 ^ 63 - 1 : Int) < 1600 - skewOptions.clock_skew_tolerance_seconds) := by
  have hb : base45_decode (unsignedQr cwtExpNbfClash) = .ok (unsignedSign1Bytes cwtExpNbfClash) := rfl
  have hd : pipelineDecompress noInflate (unsignedSign1Bytes cwtExpNbfClash)
      allowUnverifiedOptions.max_decompressed_bytes = .ok (unsignedSign1Bytes cwtExpNbfClash) := rfl
  have hs1 : sign1FromTaggedSlice (unsignedSign1Bytes cwtExpNbfClash) =
      some (unsignedSign1Struct cwtExpNbfClash) := rfl
  have hpv : parse_and_verify (unsignedSign1Bytes cwtExpNbfClash) none none =
      .ok (unsignedCoseResult cwtExpNbfClash) := by
    simp only [parse_and_verify, hs1]
    rfl
  have hdec : decode_internal noInflate 5000 (unsignedQr cwtExpNbfClash) none none
      allowUnverifiedOptions = .error (.expired 10) := by
    simp only [decode_internal, hb, hd, hpv]
    rfl
  have hb2 : base45_decode (unsignedQr cwtNeverExpires) =
      .ok (unsignedSign1Bytes cwtNeverExpires) := rfl
  have hd2 : pipelineDecompress noInflate (unsignedSign1Bytes cwtNeverExpires)
      skewOptions.max_decompressed_bytes = .ok (unsignedSign1Bytes cwtNeverExpires) := rfl
  have hs2 : sign1FromTaggedSlice (unsignedSign1Bytes cwtNeverExpires) =
      some (unsignedSign1Struct cwtNeverExpires) := rfl
  have hpv2 : parse_and_verify (unsignedSign1Bytes cwtNeverExpires) none none =
      .ok (unsignedCoseResult cwtNeverExpires) := by
    simp only [parse_and_verify, hs2]
    rfl
  have hdec2 : decode_internal noInflate 1600 (unsignedQr cwtNeverExpires) none none
      skewOptions = .error (.expired (2 ^ 63 - 1)) := by
    simp only [decode_internal, hb2, hd2, hpv2]
    rfl
  refine ⟨hdec, by decide, ?_, hdec2, by decide⟩
  rw [hdec]
  simp

/-- C7 (amended): the decoder emits no compression warning at all — the
source's `WarningCode` has no `NonStandardCompression` variant, so no
warning of a successful decode reads as `NonStandardCompression` in the
spec's vocabulary, whatever the detected compression was. -/
theorem C7_no_compression_warning (inflate : Bytes → Except String Bytes) (now : Int)
    (qr : String) (v : Option Verifier) (d : Option Decryptor) (opts : DecodeOptions)
    (res : DecodeResult) (h : decode_internal inflate now qr v d opts = .ok res) :
    ∀ w ∈ res.warnings, warningCodeToSpec w.code ≠ SpecWarningCode.nonStandardCompression := by
  intro w _
  obtain ⟨c, m⟩ := w
  cases c <;> simp [warningCodeToSpec]

/-- C7 witness: a concrete successful decode (with biometrics skipped, so
the warning list is nonempty) whose one warning does not read as
`NonStandardCompression`. -/
theorem C7_no_compression_warning_witness :
    warningCodeToSpec (Warning.mk .biometricsSkipped "Biometric data was skipped").code ≠
      SpecWarningCode.nonStandardCompression := by
  have hb : base45_decode (unsignedQr cwtMinimal) = .ok (unsignedSign1Bytes cwtMinimal) := rfl
  have hd : pipelineDecompress noInflate (unsignedSign1Bytes cwtMinimal)
      skipBioOptions.max_decompressed_bytes = .ok (unsignedSign1Bytes cwtMinimal) := rfl
  have hs1 : sign1FromTaggedSlice (unsignedSign1Bytes cwtMinimal) =
      some (unsignedSign1Struct cwtMinimal) := rfl
  have hpv : parse_and_verify (unsignedSign1Bytes cwtMinimal) none none =
      .ok (unsignedCoseResult cwtMinimal) := by
    simp only [parse_and_verify, hs1]
    rfl
  have hdec : decode_internal noInflate 1000 (unsignedQr cwtMinimal) none none skipBioOptions =
      .ok skipBioDecodeResult := by
    simp only [decode_internal, hb, hd, hpv]
    rfl
  exact C7_no_compression_warning noInflate 1000 (unsignedQr cwtMinimal) none none
    skipBioOptions skipBioDecodeResult hdec
    (Warning.mk .biometricsSkipped "Biometric data was skipped")
    (List.mem_singleton.mpr rfl)

/-- C7 counterexample: a successful decode whose input is raw (detected
compression `None`, not zlib) returns an empty warning list — no
`NonStandardCompression` warning is emitted, contrary to the claim. -/
theorem C7_no_compression_warning_counterexample :
    decompress noInflate (unsignedSign1Bytes cwtMinimal) 65536 =
      .ok (unsignedSign1Bytes cwtMinimal, .none) ∧
    decode_internal noInflate 1000 (unsignedQr cwtMinimal) none none allowUnverifiedOptions =
      .ok minimalDecodeResult ∧
    minimalDecodeResult.warnings = [] := by
  refine ⟨rfl, ?_, rfl⟩
  have hb : base45_decode (unsignedQr cwtMinimal) = .ok (unsignedSign1Bytes cwtMinimal) := rfl
  have hd : pipelineDecompress noInflate (unsignedSign1Bytes cwtMinimal)
      allowUnverifiedOptions.max_decompressed_bytes = .ok (unsignedSign1Bytes cwtMinimal) := rfl
  have hs1 : sign1FromTaggedSlice (unsignedSign1Bytes cwtMinimal) =
      some (unsignedSign1Struct cwtMinimal) := rfl
  have hpv : parse_and_verify (unsignedSign1Bytes cwtMinimal) none none =
      .ok (unsignedCoseResult cwtMinimal) := by
    simp only [parse_and_verify, hs1]
    rfl
  simp only [decode_internal, hb, hd, hpv]
  rfl

lemma transformApply_unknown (claim : Claim169) (k : Int) (val : CborValue) (skip : Bool) :
    (transformApply claim k val skip).unknown_fields =
      if specUnknownKey k then
        (match cbor_to_json val with
         | some j => assocInsert claim.unknown_fields k j
         | none => claim.unknown_fields)
      else claim.unknown_fields := by
  by_cases h23 : 1 ≤ k ∧ k ≤ 23
  · obtain ⟨hlo, hhi⟩ := h23
    interval_cases k <;> rfl
  · by_cases h65 : 50 ≤ k ∧ k ≤ 65
    · obtain ⟨hlo, hhi⟩ := h65
      interval_cases k <;> cases skip <;> rfl
    · unfold transformApply
      rw [if_neg (by omega : ¬ k = 1), if_neg (by omega : ¬ k = 2),
        if_neg (by omega : ¬ k = 3), if_neg (by omega : ¬ k = 4),
        if_neg (by omega : ¬ k = 5), if_neg (by omega : ¬ k = 6),
        if_neg (by omega : ¬ k = 7), if_neg (by omega : ¬ k = 8),
        if_neg (by omega : ¬ k = 9), if_neg (by omega : ¬ k = 10),
        if_neg (by omega : ¬ k = 11), if_neg (by omega : ¬ k = 12),
        if_neg (by omega : ¬ k = 13), if_neg (by omega : ¬ k = 14),
        if_neg (by omega : ¬ k = 15), if_neg (by omega : ¬ k = 16),
        if_neg (by omega : ¬ k = 17), if_neg (by omega : ¬ k = 18),
        if_neg (by omega : ¬ k = 19), if_neg (by omega : ¬ k = 20),
        if_neg (by omega : ¬ k = 21), if_neg (by omega : ¬ k = 22),
        if_neg (by omega : ¬ k = 23), if_neg (by omega : ¬ (50 ≤ k ∧ k ≤ 65)),
        if_pos (show specUnknownKey k by unfold specUnknownKey; omega)]
      cases hcv : cbor_to_json val <;> simp [hcv]

lemma assocInsert_mem (bag : List (Int × Json)) (k k' : Int) (j j' : Json)
    (h : (k, j) ∈ assocInsert bag k' j') : (k, j) ∈ bag ∨ (k = k' ∧ j = j') := by
  induction bag with
  | nil =>
    unfold assocInsert at h
    rcases List.mem_singleton.mp h with heq
    exact Or.inr ⟨congrArg Prod.fst heq, congrArg Prod.snd heq⟩
  | cons p tl ih =>
    obtain ⟨pk, pj⟩ := p
    unfold assocInsert at h
    by_cases he : pk = k'
    · rw [if_pos he] at h
      rcases List.mem_cons.mp h with heq | hm
      · exact Or.inr ⟨congrArg Prod.fst heq, congrArg Prod.snd heq⟩
      · exact Or.inl (List.mem_cons_of_mem _ hm)
    · rw [if_neg he] at h
      rcases List.mem_cons.mp h with heq | hm
      · exact Or.inl (List.mem_cons.mpr (Or.inl heq))
      · rcases ih hm with hm' | hkj
        · exact Or.inl (List.mem_cons_of_mem _ hm')
        · exact Or.inr hkj

lemma unknownBag_foldl_mem (m : List (CborValue × CborValue)) :
    ∀ (bag : List (Int × Json)) (k : Int) (j : Json),
      (k, j) ∈ m.foldl unknownBagStep bag →
      (k, j) ∈ bag ∨ (specUnknownKey k ∧ ∃ v, (CborValue.int k, v) ∈ m ∧ cbor_to_json v = some j) := by
  induction m with
  | nil => intro bag k j h; exact Or.inl h
  | cons p tl ih =>
    intro bag k j h
    rw [List.foldl_cons] at h
    rcases ih (unknownBagStep bag p) k j h with hm | ⟨hu, v, hv, hj⟩
    · obtain ⟨key, val⟩ := p
      unfold unknownBagStep at hm
      cases key with
      | int i =>
        simp only [] at hm
        by_cases hc : specUnknownKey i ∧ inI64 i
        · rw [if_pos hc] at hm
          cases hcv : cbor_to_json val with
          | none => rw [hcv] at hm; exact Or.inl hm
          | some j' =>
            rw [hcv] at hm
            rcases assocInsert_mem bag k i j j' hm with hmb | ⟨rfl, rfl⟩
            · exact Or.inl hmb
            · exact Or.inr ⟨hc.1, val, List.mem_cons_self _ _, hcv⟩
        · rw [if_neg hc] at hm
          exact Or.inl hm
      | bytes b => exact Or.inl hm
      | float f => exact Or.inl hm
      | text s => exact Or.inl hm
      | bool b => exact Or.inl hm
      | null => exact Or.inl hm
      | tag t v' => exact Or.inl hm
      | array vs => exact Or.inl hm
      | map mm => exact Or.inl hm
    · exact Or.inr ⟨hu, v, List.mem_cons_of_mem _ hv, hj⟩

lemma transformEntries_ok_unknown (m : List (CborValue × CborValue)) :
    ∀ (skip : Bool) (claim : Claim169) (c : Claim169),
      transformEntries m skip claim = .ok c →
      c.unknown_fields = m.foldl unknownBagStep claim.unknown_fields := by
  induction m with
  | nil =>
    intro skip claim c h
    cases h
    rfl
  | cons p tl ih =>
    intro skip claim c h
    obtain ⟨key, val⟩ := p
    unfold transformEntries at h
    cases key with
    | int i =>
      simp only [] at h
      by_cases hr : inI64 i
      · rw [show i64FromInt i = some i from by simp [i64FromInt, hr]] at h
        rw [List.foldl_cons]
        have hstep : unknownBagStep claim.unknown_fields (CborValue.int i, val) =
            (transformApply claim i val skip).unknown_fields := by
          rw [transformApply_unknown]
          unfold unknownBagStep
          simp only []
          by_cases hu : specUnknownKey i
          · rw [if_pos ⟨hu, hr⟩, if_pos hu]
          · rw [if_neg (by intro hc; exact hu hc.1), if_neg hu]
        rw [hstep]
        exact ih skip _ c h
      · rw [show i64FromInt i = none from by simp [i64FromInt, hr]] at h
        cases h
    | bytes b => cases h
    | float f => cases h
    | text s => cases h
    | bool b => cases h
    | null => cases h
    | tag t v' => cases h
    | array vs => cases h
    | map mm => cases h

lemma transformEntries_ok_of_keys (m : List (CborValue × CborValue)) :
    ∀ (skip : Bool) (claim : Claim169),
      (∀ p ∈ m, ∃ i : Int, p.1 = .int i ∧ inI64 i) →
      exceptIsOk (transformEntries m skip claim) = true := by
  induction m with
  | nil => intro skip claim _; rfl
  | cons p tl ih =>
    intro skip claim hkeys
    obtain ⟨key, val⟩ := p
    obtain ⟨i, hki, hri⟩ := hkeys (key, val) (List.mem_cons_self _ _)
    simp only [] at hki
    subst hki
    unfold transformEntries
    simp only []
    rw [show i64FromInt i = some i from by simp [i64FromInt, hri]]
    exact ih skip _ (fun q hq => hkeys q (List.mem_cons_of_mem _ hq))

/-- C8 (amended): integer keys outside the assigned ranges that fit `i64`
are preserved in the unknown-field bag with their JSON-converted value
(later duplicates overriding), values with no JSON conversion are dropped
silently, the bag is sound (every entry comes from an unknown in-range key
with a converting value), a map whose keys all fit `i64` never makes the
transform fail, and a successful decode with a nonempty bag carries an
`UnknownFields` warning.  A key beyond `i64` is a `Claim169Invalid` error,
contrary to the claim's `never causes an error`. -/
theorem C8_unknown_field_preservation (m : List (CborValue × CborValue)) (skip : Bool) :
    ((∀ p ∈ m, ∃ i : Int, p.1 = .int i ∧ inI64 i) →
      exceptIsOk (transform (.map m) skip) = true) ∧
    (∀ c, transform (.map m) skip = .ok c → c.unknown_fields = unknownBag m) ∧
    (∀ k j, (k, j) ∈ unknownBag m →
      specUnknownKey k ∧ ∃ v, (CborValue.int k, v) ∈ m ∧ cbor_to_json v = some j) ∧
    (∀ (inflate : Bytes → Except String Bytes) (now : Int) (qr : String)
       (v : Option Verifier) (d : Option Decryptor) (opts : DecodeOptions)
       (res : DecodeResult),
      decode_internal inflate now qr v d opts = .ok res →
      res.claim169.unknown_fields ≠ [] →
      ∃ w ∈ res.warnings, w.code = WarningCode.unknownFields) := by
  refine ⟨?_, ?_, ?_, ?_⟩
  · intro hkeys
    exact transformEntries_ok_of_keys m skip {} hkeys
  · intro c h
    exact transformEntries_ok_unknown m skip {} c h
  · intro k j h
    rcases unknownBag_foldl_mem m [] k j h with hm | hgood
    · cases hm
    · exact hgood
  · intro inflate now qr v d opts res h hne
    obtain ⟨comp, bytes, r, cwtres, claim, _, _, _, _, _, _, _, _, hres⟩ :=
      decode_internal_ok_inversion inflate now qr v d opts res h
    subst hres
    refine ⟨⟨.unknownFields, unknownFieldsMessage claim⟩, ?_, rfl⟩
    simp only at hne
    unfold decodeWarnings
    have hemp : claim.unknown_fields.isEmpty = false := by
      cases hl : claim.unknown_fields with
      | nil => exact absurd hl hne
      | cons a tl => rfl
    rw [hemp]
    simp

/-- C8 witness: the map `{99: 7}` transforms successfully, its bag is
exactly `[(99, 7)]`, and the concrete decode of a credential carrying it
emits the `UnknownFields` warning. -/
theorem C8_unknown_field_preservation_witness :
    exceptIsOk (transform (.map [(.int 99, .int 7)]) false) = true ∧
    unknownBag [(.int 99, .int 7)] = [(99, Json.num 7)] ∧
    ({ unknown_fields := [(99, Json.num 7)] } : Claim169).unknown_fields = unknownBag [(.int 99, .int 7)] ∧
    ∃ w ∈ unknownKeyDecodeResult.warnings, w.code = WarningCode.unknownFields := by
  obtain ⟨h1, h2, _, h4⟩ := C8_unknown_field_preservation [(.int 99, .int 7)] false
  refine ⟨?_, rfl, ?_, ?_⟩
  · exact h1 (by
      intro p hp
      simp only [List.mem_singleton] at hp
      subst hp
      exact ⟨99, rfl, by decide⟩)
  · exact h2 { unknown_fields := [(99, Json.num 7)] } rfl
  · have hb : base45_decode (unsignedQr cwtUnknownKey) = .ok (unsignedSign1Bytes cwtUnknownKey) := rfl
    have hd : pipelineDecompress noInflate (unsignedSign1Bytes cwtUnknownKey)
        allowUnverifiedOptions.max_decompressed_bytes = .ok (unsignedSign1Bytes cwtUnknownKey) := rfl
    have hs1 : sign1FromTaggedSlice (unsignedSign1Bytes cwtUnknownKey) =
        some (unsignedSign1Struct cwtUnknownKey) := rfl
    have hpv : parse_and_verify (unsignedSign1Bytes cwtUnknownKey) none none =
        .ok (unsignedCoseResult cwtUnknownKey) := by
      simp only [parse_and_verify, hs1]
      rfl
    have hdec : decode_internal noInflate 1000 (unsignedQr cwtUnknownKey) none none
        allowUnverifiedOptions = .ok unknownKeyDecodeResult := by
      simp only [decode_internal, hb, hd, hpv]
      rfl
    exact h4 noInflate 1000 (unsignedQr cwtUnknownKey) none none allowUnverifiedOptions
      unknownKeyDecodeResult hdec (by simp [unknownKeyDecodeResult])

/-- C8 counterexample: the unknown key `2^63` (a valid CBOR integer key
outside `i64`) makes the transform fail with `Claim169Invalid` — an
unknown key can cause an error — and the unknown key 99 carrying a
CBOR tag value is dropped from the bag rather than preserved. -/
theorem C8_unknown_field_preservation_counterexample :
    transform (.map [(.int (2 ^ 63), .text "x")]) false =
      .error (.claim169Invalid "claim 169 key 9223372036854775808 is out of valid range") ∧
    (transform (.map [(.int 99, .tag 0 (.int 1))]) false).map
        (fun c => c.unknown_fields.length) = .ok 0 := by
  constructor
  · rfl
  · rfl
